import Mathlib

/-!
Shallow embedding of the core of the `network-design-2e-last-mile` repository:
the Continuous Approximation (CA) engine
(`src/routing_tools/continuous_approximation.py`), the Scenario / entity
classes (`src/utils/scenario.py`, `src/utils/classes.py`), the instance
assembly step (`src/utils/instance.py`) and the stochastic facility-location
model builder (`src/models/extended_saa_model.py`).

Python data is embedded as follows: floats become `ℚ` (with `math.sqrt`
represented by an explicit oracle function `ℚ → ℚ`, constrained in theorem
hypotheses exactly where the source relies on properties of the square root);
Python dicts become association lists (or, for the CA metric tables that are
mutated in nested loops, total functions `List PyVal → Option ℚ`); Python
tuples used as dict keys become `List PyVal`, where `PyVal` is a sum of the
string and integer values the source puts in key tuples, so that the source
semantics of comparing an `int` period with a `str` scenario id (never equal)
is preserved; fallible operations (dict lookup, list indexing, division by
zero, attribute access on an attribute a class does not define) return
`Except String`, mirroring the exception the Python runtime would raise.
-/

namespace Src

/-- Values that the source places inside dict-key tuples: strings
(facility / pixel / vehicle / scenario / tier identifiers) and ints
(period indices).  In Python a `str` value never compares equal to an
`int` value, which the two constructors reproduce. -/
inductive PyVal : Type
  | vs (s : String)
  | vi (n : ℤ)
  deriving DecidableEq, Repr

/-- Association-list read, the embedding of `d[key]` returning `None`
absence as `Option`. Python dicts have unique keys; the source only builds
dicts from comprehensions / loops over distinct keys. -/
def pyFind {κ α : Type} [DecidableEq κ] (d : List (κ × α)) (k : κ) : Option α :=
  (d.find? (fun p => decide (p.1 = k))).map Prod.snd

/-- Embedding of a Python dict subscript `d[key]`: raises `KeyError` when
the key is absent. -/
def pyGet {κ α : Type} [DecidableEq κ] (d : List (κ × α)) (k : κ) : Except String α :=
  match pyFind d k with
  | none => .error ("KeyError")
  | some v => .ok v

/-- Embedding of Python list indexing `xs[t]` for `t ≥ 0`: raises
`IndexError` out of range. -/
def pyListGet (xs : List ℚ) (t : ℕ) : Except String ℚ :=
  match xs.get? t with
  | none => .error ("IndexError: list index out of range")
  | some v => .ok v

/-- Embedding of Python float division: division by zero raises
`ZeroDivisionError` instead of returning a junk value. -/
def pydiv (a b : ℚ) : Except String ℚ :=
  if b = 0 then .error ("ZeroDivisionError: float division by zero") else .ok (a / b)

/-- Embedding of `math.sqrt` through an oracle `sqrtFn` supplied by the
caller (the square root of a rational is generally irrational, so the
engine is parameterised by the real-sqrt oracle; theorems add the defining
properties of the square root as hypotheses where they are used).
`math.sqrt` raises a `ValueError` on negative input. -/
def pysqrt (sqrtFn : ℚ → ℚ) (x : ℚ) : Except String ℚ :=
  if x < 0 then .error ("ValueError: math domain error") else .ok (sqrtFn x)

/-- Round-half-to-even on `ℚ`, the tie-breaking rule of the Python builtin
`round`. -/
def roundHalfEven (q : ℚ) : ℤ :=
  if q - ⌊q⌋ < 1 / 2 then ⌊q⌋
  else if 1 / 2 < q - ⌊q⌋ then ⌊q⌋ + 1
  else if (⌊q⌋ : ℤ) % 2 = 0 then ⌊q⌋ else ⌊q⌋ + 1

/-- Embedding of the Python builtin `round(q, nd)` (round-half-even at
`nd` decimal digits). -/
def pyRound (nd : ℕ) (q : ℚ) : ℚ :=
  (roundHalfEven (q * (10 : ℚ) ^ nd) : ℚ) / (10 : ℚ) ^ nd

/-- Fold of a fallible step over a list, stopping at the first error:
the embedding of a Python `for` loop whose body may raise. -/
def foldE {σ α : Type} (f : σ → α → Except String σ) : σ → List α → Except String σ
  | s, [] => .ok s
  | s, a :: as =>
    match f s a with
    | .error e => .error e
    | .ok s' => foldE f s' as

/-- Fallible map over a list (list comprehension whose element expression
may raise), evaluated left to right, stopping at the first error. -/
def mapE {α β : Type} (f : α → Except String β) : List α → Except String (List β)
  | [] => .ok []
  | a :: as =>
    match f a with
    | .error e => .error e
    | .ok b =>
      match mapE f as with
      | .error e => .error e
      | .ok bs => .ok (b :: bs)

theorem foldE_append {σ α : Type} (f : σ → α → Except String σ) (l₁ l₂ : List α) (s : σ) :
    foldE f s (l₁ ++ l₂) =
      match foldE f s l₁ with
      | .error e => .error e
      | .ok s' => foldE f s' l₂ := by
  induction l₁ generalizing s with
  | nil => simp [foldE]
  | cons a as ih =>
    simp only [List.cons_append, foldE]
    cases f s a with
    | error e => rfl
    | ok s' => exact ih s'

theorem foldE_ok_of_append {σ α : Type} {f : σ → α → Except String σ} {l₁ l₂ : List α}
    {s s'' : σ} (h : foldE f s (l₁ ++ l₂) = .ok s'') :
    ∃ s', foldE f s l₁ = .ok s' ∧ foldE f s' l₂ = .ok s'' := by
  rw [foldE_append] at h
  cases hfold : foldE f s l₁ with
  | error e => rw [hfold] at h; exact absurd h (by simp)
  | ok s' => rw [hfold] at h; exact ⟨s', rfl, h⟩

/-- An invariant preserved by every successful step is preserved by a
successful fold. -/
theorem foldE_invariant {σ α : Type} {P : σ → Prop} {f : σ → α → Except String σ}
    (hstep : ∀ s a s', P s → f s a = .ok s' → P s') :
    ∀ {l : List α} {s s' : σ}, foldE f s l = .ok s' → P s → P s' := by
  intro l
  induction l with
  | nil => intro s s' h hP; simp only [foldE] at h; cases h; exact hP
  | cons a as ih =>
    intro s s' h hP
    simp only [foldE] at h
    cases hf : f s a with
    | error e => rw [hf] at h; exact absurd h (by simp)
    | ok s₁ => rw [hf] at h; exact ih h (hstep s a s₁ hP hf)

/-- A successful fold over a list containing `a` runs the step on `a`
successfully from some intermediate state, and the folds before and after
are themselves successful. -/
theorem foldE_ok_of_mem {σ α : Type} {f : σ → α → Except String σ} {l : List α}
    {s s' : σ} {a : α} (ha : a ∈ l) (h : foldE f s l = .ok s') :
    ∃ l₂ s₁ s₂, f s₁ a = .ok s₂ ∧ foldE f s₂ l₂ = .ok s' ∧
      (∀ x ∈ l₂, x ∈ l) := by
  obtain ⟨l₁, l₂, rfl⟩ := List.append_of_mem ha
  obtain ⟨t, _, ht⟩ := foldE_ok_of_append h
  simp only [foldE] at ht
  cases hf : f t a with
  | error e => rw [hf] at ht; exact absurd ht (by simp)
  | ok s₂ =>
    rw [hf] at ht
    exact ⟨l₂, t, s₂, hf, ht, fun x hx => by simp [hx]⟩

theorem mapE_ok_length {α β : Type} {f : α → Except String β} :
    ∀ {l : List α} {ys : List β}, mapE f l = .ok ys → ys.length = l.length := by
  intro l
  induction l with
  | nil => intro ys h; simp only [mapE] at h; cases h; rfl
  | cons a as ih =>
    intro ys h
    simp only [mapE] at h
    cases hf : f a with
    | error e => rw [hf] at h; exact absurd h (by simp)
    | ok b =>
      rw [hf] at h
      cases hm : mapE f as with
      | error e => rw [hm] at h; exact absurd h (by simp)
      | ok bs => rw [hm] at h; cases h; simp [ih hm]

/-- If every element of the list maps successfully to `g a`, the fallible
map succeeds and equals the pure map. -/
theorem mapE_eq_map {α β : Type} {f : α → Except String β} {g : α → β} :
    ∀ {l : List α}, (∀ a ∈ l, f a = .ok (g a)) → mapE f l = .ok (l.map g) := by
  intro l
  induction l with
  | nil => intro _; rfl
  | cons a as ih =>
    intro h
    simp only [mapE, h a (by simp), List.map_cons]
    rw [ih (fun x hx => h x (by simp [hx]))]

/-- A successful fallible map ran every element successfully. -/
theorem mapE_ok_of_mem {α β : Type} {f : α → Except String β} :
    ∀ {l : List α} {ys : List β} {a : α}, a ∈ l → mapE f l = .ok ys →
      ∃ b, f a = .ok b ∧ b ∈ ys := by
  intro l
  induction l with
  | nil => intro ys a ha; exact absurd ha (by simp)
  | cons x xs ih =>
    intro ys a ha h
    simp only [mapE] at h
    cases hf : f x with
    | error e => rw [hf] at h; exact absurd h (by simp)
    | ok b =>
      rw [hf] at h
      cases hm : mapE f xs with
      | error e => rw [hm] at h; exact absurd h (by simp)
      | ok bs =>
        rw [hm] at h
        cases h
        rcases List.mem_cons.mp ha with rfl | ha
        · exact ⟨b, hf, by simp⟩
        · obtain ⟨c, hc, hcm⟩ := ih ha hm
          exact ⟨c, hc, by simp [hcm]⟩

end Src

namespace Src

/-- Embedding of `GeoPoint` from `src/utils/classes.py`. -/
structure GeoPoint : Type where
  lon : ℚ
  lat : ℚ
  area_surface : ℚ
  speed_intra_stop : List (String × ℚ)

/-- Embedding of `Pixel` (delivery zone) from `src/utils/classes.py`: identity,
location, per-period demand / drop / stop lists, circuit factor `k`
and availability flag. -/
structure Pixel : Type where
  id_pixel : String
  geo_point : GeoPoint
  demand_by_period : List ℚ
  drop_by_period : List ℚ
  stop_by_period : List ℚ
  k : ℚ
  is_available : Bool

/-- Embedding of `Vehicle` from `src/utils/classes.py`. -/
structure Vehicle : Type where
  id_vehicle : String
  type_vehicle : String
  capacity : ℚ
  cost_fixed : ℚ
  cost_hour : ℚ
  cost_km : ℚ
  cost_item : ℚ
  time_set_up : ℚ
  time_service : ℚ
  time_prep : ℚ
  time_loading_per_item : ℚ
  t_max : ℚ
  speed_line_haul : ℚ
  speed_inter_stop : ℚ
  k : ℚ

/-- Embedding of `Facility` from `src/utils/classes.py`: note that the class defines
`cost_installation`, `cost_operation` and `cost_sourcing` and does NOT
define any attribute named `cost_fixed`. -/
structure Facility : Type where
  id_facility : String
  geo_point : GeoPoint
  capacity : List (String × ℚ)
  cost_installation : List (String × ℚ)
  cost_operation : List (String × List ℚ)
  cost_sourcing : ℚ
  is_depot : Bool

/-- Record value of the inner cost / fleet dicts that the model builder
reads from a scenario (`\x7b"total": …\x7d` and `\x7b"fleet_size": …\x7d`
shaped dicts). -/
abbrev FieldRec : Type := List (String × ℚ)

/-- An echelon table: a dict keyed by `(facility, pixel, period)` or
`(pixel, period)` tuples whose values are `FieldRec` dicts. -/
abbrev EchTable : Type := List (List PyVal × FieldRec)

/-- Embedding of `Scenario` from `src/utils/scenario.py`.  Its attributes are exactly
`id_scenario`, `pixels`, `costs`, `fleet_size`, `periods` and
`parameters`; there is no `demands` attribute. -/
structure Scenario : Type where
  id_scenario : String
  pixels : List (String × Pixel)
  costs : Option (List (String × EchTable)) := none
  fleet_size : Option (List (String × EchTable)) := none
  periods : ℕ
  parameters : Option (List (List PyVal × FieldRec)) := none

/-- Embedding of `Scenario.get_cost_serving(echelon)` from `src/utils/scenario.py`:
`self.costs[echelon]`.  When `costs` is still `None` (never set), the
subscript raises a `TypeError`. -/
def Scenario.get_cost_serving (sc : Scenario) (echelon : String) : Except String EchTable :=
  match sc.costs with
  | none => .error ("TypeError: NoneType object is not subscriptable")
  | some d => pyGet d echelon

/-- Embedding of `Scenario.get_fleet_size(echelon)` from `src/utils/scenario.py`. -/
def Scenario.get_fleet_size (sc : Scenario) (echelon : String) : Except String EchTable :=
  match sc.fleet_size with
  | none => .error ("TypeError: NoneType object is not subscriptable")
  | some d => pyGet d echelon

/-- The attribute read `scenario.demands` performed by
`ContinuousApproximation._add_first_echelon_costs`
(`src/routing_tools/continuous_approximation.py`, line 342).  The
`Scenario` class of `src/utils/scenario.py` defines no attribute named
`demands` (and nothing in the repository ever assigns one), so in Python
this read raises `AttributeError` unconditionally. -/
def Scenario.demandsAttr (_ : Scenario) : Except String (List (String × ℚ)) :=
  .error ("AttributeError: Scenario object has no attribute demands")

/-- The attribute read `facility.cost_fixed` performed by
`ExtendedSAAModel.__add_objective` (`src/models/extended_saa_model.py`,
line 218).  The `Facility` class of `src/utils/classes.py` defines
`cost_installation` but no attribute named `cost_fixed`, so in Python
this read raises `AttributeError` unconditionally. -/
def Facility.costFixedAttr (_ : Facility) : Except String (List (String × ℚ)) :=
  .error ("AttributeError: Facility object has no attribute cost_fixed")

/-- Embedding of `ApproximationConfiguration` from
`src/routing_tools/continuous_approximation.py`. -/
structure ApproximationConfiguration : Type where
  scenarios : List (String × Scenario)
  facilities : List (String × Facility)
  delivery_zones : List (String × Pixel)
  vehicles : List (String × Vehicle)
  periods : ℕ := 12

/-- Embedding of `ApproximationDistances` from
`src/routing_tools/continuous_approximation.py`: the two distance
lookups loaded by `__compute_distances`. -/
structure ApproximationDistances : Type where
  facility_delivery_zone : List ((String × String) × ℚ) := []
  facilities : List (String × ℚ) := []

/-- All quantities computed by `compute_approximation_parameters` for one
`(facility, zone, vehicle, period, scenario)` tuple. -/
structure CAResult : Type where
  T_max : ℚ
  effective_capacity : ℚ
  intra_tour_time_per_customer : ℚ
  tour_time_per_customer : ℚ
  average_tour_time : ℚ
  average_number_fully_loaded_tours : ℚ
  average_number_customers_per_tour : ℚ
  average_number_tours : ℚ
  average_fleet_size : ℚ
  cost_tour_preparation : ℚ
  cost_line_haul : ℚ
  cost_intra_stop : ℚ
  cost_fixed : ℚ
  cost_variable : ℚ
  cost_total : ℚ
  distance_to_centroid : ℚ
  deriving DecidableEq

/-- The numeric core of `compute_approximation_parameters`
(`src/routing_tools/continuous_approximation.py`, lines 190-314),
translated arithmetic operation by arithmetic operation.  `isFE` is the
result of the source comparison `v == "first_echelon_truck"`;
`zoneK` is `self.config.delivery_zones[j].k`; every Python float division
and `math.sqrt` goes through `pydiv` / `pysqrt` so the `ZeroDivisionError`
and `ValueError` conditions of the source are preserved. -/
def computeCore (veh : Vehicle) (zoneK area density drop distance : ℚ)
    (isFE : Bool) (sqrtFn : ℚ → ℚ) : Except String CAResult := do
  let T_max := veh.t_max
  let effective_capacity ← pydiv veh.capacity drop
  let sqrtDensity ← pysqrt sqrtFn density
  let intra_tour_time_per_customer ← pydiv (veh.k * zoneK) (sqrtDensity * veh.speed_inter_stop)
  let tour_time_per_customer :=
    veh.time_set_up + veh.time_service * drop + intra_tour_time_per_customer
  let average_tour_time := effective_capacity * tour_time_per_customer
  let line_haul_time ← pydiv (2 * distance * veh.k) veh.speed_line_haul
  let average_number_fully_loaded_tours ←
    pydiv T_max
      ((if isFE then 0 else average_tour_time) + veh.time_prep +
        veh.time_loading_per_item * effective_capacity * drop + line_haul_time)
  let average_number_customers_per_tour :=
    effective_capacity * min 1 average_number_fully_loaded_tours
  let average_number_tours := max 1 average_number_fully_loaded_tours
  let average_fleet_size ←
    pydiv (area * density) (average_number_fully_loaded_tours * effective_capacity)
  let cost_tour_preparation :=
    veh.cost_hour *
      (veh.time_prep + veh.time_loading_per_item * average_number_customers_per_tour * drop)
  let line_haul_time2 ← pydiv (2 * distance * veh.k) veh.speed_line_haul
  let cost_line_haul := veh.cost_hour * line_haul_time2 + veh.cost_km * (2 * distance * veh.k)
  let cost_intra_stop ←
    if isFE then pure 0
    else do
      let sqrtDensity2 ← pysqrt sqrtFn density
      let km_part ← pydiv (veh.k * zoneK * average_number_customers_per_tour) sqrtDensity2
      pure (veh.cost_hour * (tour_time_per_customer * average_number_customers_per_tour) +
        veh.cost_km * km_part)
  let cost_fixed := average_fleet_size * veh.cost_fixed
  let cost_variable :=
    average_fleet_size * average_number_tours *
      (cost_tour_preparation + cost_line_haul + cost_intra_stop)
  let cost_total := cost_fixed + cost_variable
  pure
    { T_max := T_max
      effective_capacity := effective_capacity
      intra_tour_time_per_customer := intra_tour_time_per_customer
      tour_time_per_customer := tour_time_per_customer
      average_tour_time := average_tour_time
      average_number_fully_loaded_tours := average_number_fully_loaded_tours
      average_number_customers_per_tour := average_number_customers_per_tour
      average_number_tours := average_number_tours
      average_fleet_size := average_fleet_size
      cost_tour_preparation := cost_tour_preparation
      cost_line_haul := cost_line_haul
      cost_intra_stop := cost_intra_stop
      cost_fixed := cost_fixed
      cost_variable := cost_variable
      cost_total := cost_total
      distance_to_centroid := distance }

end Src

namespace Src

/-- Update of a function-represented Python dict at one key. -/
def updFn {α : Type} (m : List PyVal → Option α) (k : List PyVal) (v : α) :
    List PyVal → Option α :=
  fun k' => if k' = k then some v else m k'

/-- Subscript read `m[key]` of a function-represented dict: `KeyError`
when absent. -/
def mGet {α : Type} (m : List PyVal → Option α) (k : List PyVal) : Except String α :=
  match m k with
  | none => .error ("KeyError")
  | some v => .ok v

/-- The three tables of `ApproximationMetrics`
(`src/routing_tools/continuous_approximation.py`): total costs, average
fleet sizes, and the per-tuple parameter records.  Python mutates these
dicts in place; here they are threaded as state. -/
structure Metrics : Type where
  costs : List PyVal → Option ℚ
  fleet_sizes : List PyVal → Option ℚ
  parameters : List PyVal → Option FieldRec

/-- The empty metric tables the `ApproximationMetrics` dataclass starts
from. -/
def emptyMetrics : Metrics :=
  { costs := fun _ => none, fleet_sizes := fun _ => none, parameters := fun _ => none }

/-- The 5-tuple key `(i, j, v, t, w)` written by
`compute_approximation_parameters` (period `t` is a Python `int`, all
other components are `str`). -/
def key5 (i j v : String) (t : ℕ) (w : String) : List PyVal :=
  [.vs i, .vs j, .vs v, .vi t, .vs w]

/-- The 4-tuple key `(i, j, v, w)` written by `__initialize_parameters`
(no period component). -/
def key4 (i j v w : String) : List PyVal :=
  [.vs i, .vs j, .vs v, .vs w]

/-- The zero parameter record `__initialize_parameters` stores under every
4-tuple key. -/
def zeroParams : FieldRec :=
  [("T_max", 0), ("effective_capacity", 0), ("intra_tour_time_per_customer", 0),
   ("tour_time_per_customer", 0), ("average_tour_time", 0),
   ("average_number_fully_loaded_tours", 0), ("average_number_customers_per_tour", 0),
   ("average_number_tours", 0), ("average_fleet_size", 0), ("cost_tour_preparation", 0),
   ("cost_line_haul", 0), ("cost_intra_stop", 0), ("cost_total", 0)]

/-- The 4-tuple keys traversed by `__initialize_parameters`, in source
loop order (`for w: for i: for j: for v`), each mapped to key `(i,j,v,w)`. -/
def initKeys (cfg : ApproximationConfiguration) : List (List PyVal) :=
  cfg.scenarios.flatMap fun ws =>
    cfg.facilities.flatMap fun ifc =>
      cfg.delivery_zones.flatMap fun jp =>
        cfg.vehicles.map fun vv => key4 ifc.1 jp.1 vv.1 ws.1

/-- Embedding of `__initialize_parameters`: writes `0` into `costs` and `fleet_sizes`
and the zero record into `parameters` under every 4-tuple key (the source
does this in one loop for `costs`/`fleet_sizes` and one comprehension for
`parameters`, over the same key space; both are folded here in one pass
over `initKeys`, which yields the same tables). -/
def initMetrics (cfg : ApproximationConfiguration) : Metrics :=
  (initKeys cfg).foldl
    (fun m k =>
      { costs := updFn m.costs k 0
        fleet_sizes := updFn m.fleet_sizes k 0
        parameters := updFn m.parameters k zeroParams })
    emptyMetrics

/-- The parameter record written by `compute_approximation_parameters`
for one computed tuple (lines 318-337 of the source). -/
def paramRec (r : CAResult) : FieldRec :=
  [("T_max", r.T_max), ("effective_capacity", r.effective_capacity),
   ("intra_tour_time_per_customer", r.intra_tour_time_per_customer),
   ("tour_time_per_customer", r.tour_time_per_customer),
   ("average_tour_time", r.average_tour_time),
   ("average_number_fully_loaded_tours", r.average_number_fully_loaded_tours),
   ("average_number_customers_per_tour", r.average_number_customers_per_tour),
   ("average_number_tours", r.average_number_tours),
   ("average_fleet_size", r.average_fleet_size), ("cost_fixed", r.cost_fixed),
   ("cost_variable", r.cost_variable), ("cost_tour_preparation", r.cost_tour_preparation),
   ("cost_line_haul", r.cost_line_haul), ("cost_intra_stop", r.cost_intra_stop),
   ("cost_total", r.cost_total), ("distance_to_centroid", r.distance_to_centroid),
   ("line_haul_distance", 0), ("first_echelon_vehicles", 0)]

/-- The distance used by `compute_approximation_parameters`:
facility-to-depot for the `"first_echelon_truck"` vehicle key, the
facility-to-zone distance otherwise (lines 185-188). -/
def lookupDistance (dists : ApproximationDistances) (i j v : String) : Except String ℚ :=
  if v = "first_echelon_truck" then pyGet dists.facilities i
  else pyGet dists.facility_delivery_zone (i, j)

/-- Embedding of `compute_approximation_parameters` for one
`(facility i, zone j, vehicle v, period t, scenario w)` tuple: looks up
the vehicle, the zone circuit factor and the relevant distance
(facility-to-depot for the `"first_echelon_truck"` vehicle key,
facility-to-zone otherwise), runs the numeric core, and writes the
rounded total cost, the rounded fleet size and the parameter record under
the 5-tuple key. -/
def computeApproximationParameters (cfg : ApproximationConfiguration)
    (dists : ApproximationDistances) (sqrtFn : ℚ → ℚ) (area density drop : ℚ)
    (i j w v : String) (t : ℕ) (m : Metrics) : Except String Metrics := do
  let vehicle ← pyGet cfg.vehicles v
  let zone ← pyGet cfg.delivery_zones j
  let distance ← lookupDistance dists i j v
  let r ← computeCore vehicle zone.k area density drop distance
    (v = "first_echelon_truck") sqrtFn
  pure
    { costs := updFn m.costs (key5 i j v t w) (pyRound 2 r.cost_total)
      fleet_sizes := updFn m.fleet_sizes (key5 i j v t w) (pyRound 2 r.average_fleet_size)
      parameters := updFn m.parameters (key5 i j v t w) (paramRec r) }

/-- The `(facility, vehicle)` pairs of the two innermost loops of
`run_continuous_approximation` (`for i in facilities: for v in vehicles`). -/
def facVehPairs (cfg : ApproximationConfiguration) : List (String × String) :=
  cfg.facilities.flatMap fun ifc => cfg.vehicles.map fun vv => (ifc.1, vv.1)

/-- One `(scenario w, pixel j, period t)` iteration of the main loop of
`run_continuous_approximation` (lines 97-118): reads the period data
(`stop[t] / area` first, then `drop[t]`, then `demand[t]`, in source
order) and, only when `demand > 0`, runs
`compute_approximation_parameters` for every `(facility, vehicle)` pair. -/
def stepPeriod (cfg : ApproximationConfiguration) (dists : ApproximationDistances)
    (sqrtFn : ℚ → ℚ) (w j : String) (px : Pixel) (t : ℕ) (m : Metrics) :
    Except String Metrics := do
  let area := px.geo_point.area_surface
  let stopT ← pyListGet px.stop_by_period t
  let density ← pydiv stopT area
  let dropT ← pyListGet px.drop_by_period t
  let demandT ← pyListGet px.demand_by_period t
  if 0 < demandT then
    foldE
      (fun m iv =>
        computeApproximationParameters cfg dists sqrtFn area density dropT iv.1 j w iv.2 t m)
      m (facVehPairs cfg)
  else pure m

/-- The `(scenario, pixel, period)` iteration space of the main loop of
`run_continuous_approximation`, in source order
(`for w, scenario: for j, pixel in scenario.pixels: for t in range(periods)`). -/
def primaryItems (cfg : ApproximationConfiguration) :
    List (String × String × Pixel × ℕ) :=
  cfg.scenarios.flatMap fun ws =>
    ws.2.pixels.flatMap fun jp =>
      (List.range cfg.periods).map fun t => (ws.1, jp.1, jp.2, t)

/-- The initialization plus the main per-tuple loop of
`run_continuous_approximation` — everything it does before calling
`_add_first_echelon_costs`. -/
def runPrimary (cfg : ApproximationConfiguration) (dists : ApproximationDistances)
    (sqrtFn : ℚ → ℚ) : Except String Metrics :=
  foldE (fun m it => stepPeriod cfg dists sqrtFn it.1 it.2.1 it.2.2.1 it.2.2.2 m)
    (initMetrics cfg) (primaryItems cfg)

/-- Python string containment (`sub in s`): list-of-chars substring test. -/
def listStarts : List Char → List Char → Bool
  | [], _ => true
  | _ :: _, [] => false
  | a :: as, b :: bs => a = b && listStarts as bs

/-- Helper for `pyStrIn`: does `sub` occur inside `l`. -/
def listHasSub (sub : List Char) : List Char → Bool
  | [] => sub.isEmpty
  | b :: rest => listStarts sub (b :: rest) || listHasSub sub rest

/-- Embedding of the Python membership test `sub in s` on strings
(substring containment).  The source line
`if v not in ("first_echelon_truck")` tests string containment — the
parenthesised expression is a `str`, not a tuple. -/
def pyStrIn (sub s : String) : Bool := listHasSub sub.data s.data

/-- Embedding of the Python dict item assignment `d[k] = v` on an
association list: replace the first binding of `k`, appending when `k`
is new. -/
def pySetA {κ α : Type} [DecidableEq κ] : List (κ × α) → κ → α → List (κ × α)
  | [], k, v => [(k, v)]
  | (k', v') :: rest, k, v =>
    if k' = k then (k, v) :: rest else (k', v') :: pySetA rest k v

/-- Embedding of `_add_first_echelon_costs` (lines 339-359): for every scenario it
first reads `scenario.demands` — an attribute the `Scenario` class does
not define (`Scenario.demandsAttr` raises `AttributeError`) — and then,
per zone key, non-depot facility and period, would add the
`first_echelon_truck` cost into every other vehicle cost entry and copy
the line-haul distance and fleet size into their parameter records. -/
def addFirstEchelonCosts (cfg : ApproximationConfiguration) (m : Metrics) :
    Except String Metrics :=
  foldE
    (fun m ws => do
      let dkeys ← Scenario.demandsAttr ws.2
      foldE
        (fun m jk =>
          foldE
            (fun m ifc =>
              if ifc.2.is_depot then pure m
              else
                foldE
                  (fun m t => do
                    let feCost ← mGet m.costs (key5 ifc.1 jk ("first_echelon_truck") t ws.1)
                    let feRec ← mGet m.parameters (key5 ifc.1 jk ("first_echelon_truck") t ws.1)
                    let lineHaulDistance ← pyGet feRec ("distance_to_centroid")
                    let feVehicles ← pyGet feRec ("average_fleet_size")
                    foldE
                      (fun m vv =>
                        if pyStrIn vv.1 ("first_echelon_truck") then pure m
                        else do
                          let c ← mGet m.costs (key5 ifc.1 jk vv.1 t ws.1)
                          let pr ← mGet m.parameters (key5 ifc.1 jk vv.1 t ws.1)
                          pure
                            { m with
                              costs := updFn m.costs (key5 ifc.1 jk vv.1 t ws.1) (c + feCost)
                              parameters :=
                                updFn m.parameters (key5 ifc.1 jk vv.1 t ws.1)
                                  (pySetA (pySetA pr ("line_haul_distance") lineHaulDistance)
                                    ("first_echelon_vehicles") feVehicles) })
                      m cfg.vehicles)
                  m (List.range cfg.periods))
            m cfg.facilities)
        m (dkeys.map Prod.fst))
    m cfg.scenarios

/-- Embedding of `run_continuous_approximation` (lines 85-122): initialization, the
per-tuple loop, then the first-echelon injection pass; it returns the
metric tables (the source returns the triple
`(costs, fleet_sizes, parameters)`, bundled here as `Metrics`).  The
distance tables of `__compute_distances` come from spreadsheet files and
are passed in as `dists`. -/
def runContinuousApproximation (cfg : ApproximationConfiguration)
    (dists : ApproximationDistances) (sqrtFn : ℚ → ℚ) : Except String Metrics := do
  let m ← runPrimary cfg dists sqrtFn
  addFirstEchelonCosts cfg m

/-- Embedding of `Instance.__compute_continuous_approximation`
(`src/utils/instance.py`, lines 147-155).  The source constructs
`ContinuousApproximation(facilities=…, vehicles=…, scenarios=…)` without
the required positional parameter `pixels` of
`ContinuousApproximation.__init__`, so the constructor call raises
`TypeError` before any computation happens; and even the value
`run_continuous_approximation` would return — the raw
`(costs, fleet_sizes, parameters)` triple — is assigned wholesale to
`self.scenarios`, while `Scenario.set_costs` / `Scenario.set_fleet_size`
are never invoked anywhere in the repository. -/
def Instance.computeContinuousApproximation (_facilities : List (String × Facility))
    (_vehicles : List (String × Vehicle)) (_scenarios : List (String × Scenario)) :
    Except String Metrics :=
  .error ("TypeError: ContinuousApproximation init missing 1 required positional argument: pixels")

end Src

namespace Src

/-- Embedding of `ConfigurationInstance` from `src/utils/instance.py`. -/
structure ConfigurationInstance : Type where
  is_continuous_var_x : Bool
  type_of_flexibility : String
  N : ℕ
  is_evaluation : Bool
  sampling_id : Option ℕ := none

/-- The data of `Instance` (`src/utils/instance.py`) that the model
builder consumes: entity collections, scenario collection, period count
and configuration. -/
structure Instance : Type where
  id_instance : String
  config : ConfigurationInstance
  periods : ℕ
  vehicles : List (String × Vehicle) := []
  facilities : List (String × Facility)
  scenarios : List (String × Scenario)

/-- Module constant `FLEX_CAPACITY` of `src/models/extended_saa_model.py`. -/
def FLEX_CAPACITY : String := "flex-capacity"

/-- Module constant `FIXED_CAPACITY` of `src/models/extended_saa_model.py`. -/
def FIXED_CAPACITY : String := "fixed-capacity"

/-- The Gurobi variable names built by `__add_variables`, as structured
data (the source builds the f-strings `Z_i…_q…_t…_n…`, `X_i…`, `W_k…`,
`Y_i…_q…`; the structured form keeps the same information). -/
inductive VarName : Type
  | vZ (i q : String) (t : ℕ) (n : String)
  | vX (i k : String) (t : ℕ) (n : String)
  | vW (k : String) (t : ℕ) (n : String)
  | vY (i q : String)
  deriving DecidableEq, Repr

/-- Gurobi variable type flag (`GRB.BINARY` / `GRB.CONTINUOUS`). -/
inductive VType : Type
  | binary
  | continuous
  deriving DecidableEq, Repr

/-- A linear expression over model variables: variables are identified by
their creation index in the model (Gurobi `Var` objects compare by
identity — two `addVar` calls yield distinct variables even under the
same name). -/
structure LinExpr : Type where
  terms : List (ℚ × ℕ) := []
  const : ℚ := 0
  deriving DecidableEq, Repr

/-- Sum of plain variables (`quicksum([...vars...])`). -/
def sumVars (xs : List ℕ) : LinExpr := { terms := xs.map fun x => (1, x), const := 0 }

/-- Sum of coefficient-times-variable products. -/
def sumTerms (ts : List (ℚ × ℕ)) : LinExpr := { terms := ts, const := 0 }

/-- A constant expression. -/
def constL (c : ℚ) : LinExpr := { terms := [], const := c }

/-- A single-variable expression. -/
def oneVar (x : ℕ) : LinExpr := { terms := [(1, x)], const := 0 }

/-- Sum of two linear expressions. -/
def addL (e₁ e₂ : LinExpr) : LinExpr :=
  { terms := e₁.terms ++ e₂.terms, const := e₁.const + e₂.const }

/-- Difference of two linear expressions. -/
def subL (e₁ e₂ : LinExpr) : LinExpr :=
  { terms := e₁.terms ++ e₂.terms.map (fun p => (-p.1, p.2)), const := e₁.const - e₂.const }

/-- Scalar multiple of a linear expression. -/
def smulL (c : ℚ) (e : LinExpr) : LinExpr :=
  { terms := e.terms.map fun p => (c * p.1, p.2), const := c * e.const }

/-- Value of a linear expression under an assignment of the model
variables. -/
def evalL (σ : ℕ → ℚ) (e : LinExpr) : ℚ :=
  (e.terms.map fun p => p.1 * σ p.2).sum + e.const

/-- Constraint names built by the constraint methods, as structured data
(`R_Open_i…`, `R_activation_i…`, `R_Operating_i…`, `R_capacity_i…`,
`R_demand_k…`). -/
inductive ConstrName : Type
  | rOpen (i : String)
  | rActivation (i : String) (t : ℕ) (n : String)
  | rOperating (i q : String) (t : ℕ) (n : String)
  | rCapacity (i : String) (t : ℕ) (n : String)
  | rDemand (k : String) (t : ℕ) (n : String)
  deriving DecidableEq, Repr

/-- Constraint sense. -/
inductive CSense : Type
  | le
  | ge
  | eqc
  deriving DecidableEq, Repr

/-- A linear constraint as handed to `model.addConstr`. -/
structure Constr : Type where
  name : ConstrName
  lhs : LinExpr
  sense : CSense
  rhs : LinExpr
  deriving DecidableEq, Repr

/-- The state of the underlying Gurobi model: how many variables were
ever added (their identity indices), their names/types in creation order,
the constraints, and the objective. -/
structure ModelState : Type where
  numVars : ℕ := 0
  varsAdded : List (VarName × VType) := []
  constrs : List Constr := []
  objective : Option LinExpr := none
  deriving DecidableEq, Repr

/-- A fresh `gb.Model`. -/
def emptyModel : ModelState := {}

/-- Embedding of `model.addVar`: returns the new variable (its identity index) and
grows the model. -/
def addVar (nm : VarName) (vt : VType) (st : ModelState) : ℕ × ModelState :=
  (st.numVars,
   { st with numVars := st.numVars + 1, varsAdded := st.varsAdded ++ [(nm, vt)] })

/-- Embedding of `VariablesModel` from `src/models/extended_saa_model.py`: the four
variable dicts, keyed by the source key tuples, valued by the created
variables. -/
structure VariablesModel : Type where
  Z : List (List PyVal × ℕ) := []
  Y : List (List PyVal × ℕ) := []
  W : List (List PyVal × ℕ) := []
  X : List (List PyVal × ℕ) := []
  deriving DecidableEq, Repr

/-- Create one model variable per entry of a key/name list and collect
the dict from key tuples to the created variables. -/
def addVarDict (vt : VType) : List (List PyVal × VarName) → ModelState →
    List (List PyVal × ℕ) × ModelState
  | [], st => ([], st)
  | (k, nm) :: rest, st =>
    let p := addVar nm vt st
    let r := addVarDict vt rest p.2
    ((k, p.1) :: r.1, r.2)

/-- Key/name entries of the `Z` dict comprehension (declared tuple order
`(i, q, t, n)`; loop order `for i: for q: for t: for n`). -/
def zEntries (inst : Instance) : List (List PyVal × VarName) :=
  inst.facilities.flatMap fun ifc =>
    ifc.2.capacity.flatMap fun qc =>
      (List.range inst.periods).flatMap fun t =>
        inst.scenarios.map fun ns =>
          ([PyVal.vs ifc.1, PyVal.vs qc.1, PyVal.vi t, PyVal.vs ns.1],
            VarName.vZ ifc.1 qc.1 t ns.1)

/-- Key/name entries of the `X` dict comprehension (declared tuple order
`(i, k, t, n)`; loop order `for i: for n: for k: for t`). -/
def xEntries (inst : Instance) : List (List PyVal × VarName) :=
  inst.facilities.flatMap fun ifc =>
    inst.scenarios.flatMap fun ns =>
      ns.2.pixels.flatMap fun kp =>
        (List.range inst.periods).map fun (t : ℕ) =>
          ([PyVal.vs ifc.1, PyVal.vs kp.1, PyVal.vi (t : ℤ), PyVal.vs ns.1],
            VarName.vX ifc.1 kp.1 t ns.1)

/-- Key/name entries of the `W` dict comprehension (declared tuple order
`(k, t, n)`). -/
def wEntries (inst : Instance) : List (List PyVal × VarName) :=
  inst.scenarios.flatMap fun ns =>
    ns.2.pixels.flatMap fun kp =>
      (List.range inst.periods).map fun (t : ℕ) =>
        ([PyVal.vs kp.1, PyVal.vi (t : ℤ), PyVal.vs ns.1], VarName.vW kp.1 t ns.1)

/-- Key/name entries of the `Y` dict comprehension (tuple order `(i, q)`). -/
def yEntries (inst : Instance) : List (List PyVal × VarName) :=
  inst.facilities.flatMap fun ifc =>
    ifc.2.capacity.map fun qc =>
      ([PyVal.vs ifc.1, PyVal.vs qc.1], VarName.vY ifc.1 qc.1)

/-- Embedding of `__add_variables` (lines 140-206): `Z` is created only under
`FLEX_CAPACITY` (otherwise the dict from `__init__` stays empty); `X` and
`W` use a continuous or binary type per `is_continuous_var_x`; `Y` is
always binary.  Creation order in the model is `Z`, `X`, `W`, `Y` as in
the source. -/
def addVariables (inst : Instance) (st : ModelState) : VariablesModel × ModelState :=
  let xwType := if inst.config.is_continuous_var_x then VType.continuous else VType.binary
  let pz :=
    if inst.config.type_of_flexibility = FLEX_CAPACITY then
      addVarDict VType.binary (zEntries inst) st
    else ([], st)
  let px := addVarDict xwType (xEntries inst) pz.2
  let pw := addVarDict xwType (wEntries inst) px.2
  let py := addVarDict VType.binary (yEntries inst) pw.2
  ({ Z := pz.1, Y := py.1, W := pw.1, X := px.1 }, py.2)

end Src

namespace Src

/-- The `(i, q)` key of the `Y` dict. -/
def yKey (i q : String) : List PyVal := [.vs i, .vs q]

/-- The `(i, q, t, n)` key of the `Z` dict. -/
def zKey (i q : String) (t : ℕ) (n : String) : List PyVal := [.vs i, .vs q, .vi t, .vs n]

/-- The `(i, k, t, n)` key of the `X` dict (the declared tuple order). -/
def xKey (i k : String) (t : ℕ) (n : String) : List PyVal := [.vs i, .vs k, .vi t, .vs n]

/-- The `(k, t, n)` key of the `W` dict (the declared tuple order). -/
def wKey (k : String) (t : ℕ) (n : String) : List PyVal := [.vs k, .vi t, .vs n]

/-- Embedding of Python `max(xs)` on a list of floats: `ValueError` when
the sequence is empty. -/
def pyMax (xs : List ℚ) : Except String ℚ :=
  match xs with
  | [] => .error ("ValueError: max of an empty sequence")
  | a :: rest => .ok (rest.foldl max a)

/-- Iteration items of the installation-cost comprehension of
`__add_objective` (lines 216-223): `(i, facility, q)` for every tier with
`capacity > 0`. -/
def objInstItems (inst : Instance) : List (String × Facility × String) :=
  inst.facilities.flatMap fun ifc =>
    (ifc.2.capacity.filter fun qc => 0 < qc.2).map fun qc => (ifc.1, ifc.2, qc.1)

/-- The installation-cost component of `__add_objective`:
`round(facility.cost_fixed[q], 0) * Y[(i, q)]` summed over positive-
capacity tiers.  Every element evaluates `facility.cost_fixed`, the
attribute `Facility` does not define. -/
def objInstallation (inst : Instance) (v : VariablesModel) : Except String LinExpr := do
  let ts ← mapE
    (fun itq => do
      let cfd ← Facility.costFixedAttr itq.2.1
      let c ← pyGet cfd itq.2.2
      let y ← pyGet v.Y (yKey itq.1 itq.2.2)
      pure (pyRound 0 c, y))
    (objInstItems inst)
  pure (sumTerms ts)

/-- Iteration items of the operating-cost comprehensions of
`__add_objective` (both modes): `((i, facility, q), t, n)` over positive-
capacity tiers, periods and scenarios. -/
def objOpItems (inst : Instance) : List ((String × Facility × String) × ℕ × String) :=
  inst.facilities.flatMap fun ifc =>
    (ifc.2.capacity.filter fun qc => 0 < qc.2).flatMap fun qc =>
      (List.range inst.periods).flatMap fun t =>
        inst.scenarios.map fun ns => ((ifc.1, ifc.2, qc.1), t, ns.1)

/-- Fixed-capacity operating cost:
`round(facility.cost_operation[q][t], 0) * Y[(i, q)]`. -/
def objOpFixed (inst : Instance) (v : VariablesModel) : Except String LinExpr := do
  let ts ← mapE
    (fun it => do
      let ops ← pyGet it.1.2.1.cost_operation it.1.2.2
      let c ← pyListGet ops it.2.1
      let y ← pyGet v.Y (yKey it.1.1 it.1.2.2)
      pure (pyRound 0 c, y))
    (objOpItems inst)
  pure (sumTerms ts)

/-- Flex-capacity operating cost:
`round(facility.cost_operation[q][t], 0) * Z[(i, q, t, n)]`. -/
def objOpFlex (inst : Instance) (v : VariablesModel) : Except String LinExpr := do
  let ts ← mapE
    (fun it => do
      let ops ← pyGet it.1.2.1.cost_operation it.1.2.2
      let c ← pyListGet ops it.2.1
      let z ← pyGet v.Z (zKey it.1.1 it.1.2.2 it.2.1 it.2.2)
      pure (pyRound 0 c, z))
    (objOpItems inst)
  pure (sumTerms ts)

/-- Iteration items of the served-from-facilities comprehension:
`(i, n, scenario, k, t)`. -/
def objFacItems (inst : Instance) : List (String × String × Scenario × String × ℕ) :=
  inst.facilities.flatMap fun ifc =>
    inst.scenarios.flatMap fun ns =>
      ns.2.pixels.flatMap fun kp =>
        (List.range inst.periods).map fun (t : ℕ) => (ifc.1, ns.1, ns.2, kp.1, t)

/-- Cost served from facilities:
`round(scenario.get_cost_serving("facility")[(i, k, t)]["total"], 0) *
X[(i, k, t, n)]`. -/
def objServedFacilities (inst : Instance) (v : VariablesModel) : Except String LinExpr := do
  let ts ← mapE
    (fun it => do
      let tab ← it.2.2.1.get_cost_serving ("facility")
      let rec0 ← pyGet tab [PyVal.vs it.1, PyVal.vs it.2.2.2.1, PyVal.vi it.2.2.2.2]
      let c ← pyGet rec0 ("total")
      let x ← pyGet v.X (xKey it.1 it.2.2.2.1 it.2.2.2.2 it.2.1)
      pure (pyRound 0 c, x))
    (objFacItems inst)
  pure (sumTerms ts)

/-- Iteration items of the served-from-dc comprehension: `(n, scenario, k, t)`. -/
def objDcItems (inst : Instance) : List (String × Scenario × String × ℕ) :=
  inst.scenarios.flatMap fun ns =>
    ns.2.pixels.flatMap fun kp =>
      (List.range inst.periods).map fun (t : ℕ) => (ns.1, ns.2, kp.1, t)

/-- Cost served from the dc:
`round(scenario.get_cost_serving("dc")[(k, t)]["total"], 0) * W[(k, t, n)]`. -/
def objServedDc (inst : Instance) (v : VariablesModel) : Except String LinExpr := do
  let ts ← mapE
    (fun it => do
      let tab ← it.2.1.get_cost_serving ("dc")
      let rec0 ← pyGet tab [PyVal.vs it.2.2.1, PyVal.vi it.2.2.2]
      let c ← pyGet rec0 ("total")
      let w ← pyGet v.W (wKey it.2.2.1 it.2.2.2 it.1)
      pure (pyRound 0 c, w))
    (objDcItems inst)
  pure (sumTerms ts)

/-- Embedding of `ObjectiveModel` from `src/models/extended_saa_model.py` (all
components default to `None`). -/
structure ObjectiveModel : Type where
  cost_installation_facilities : Option LinExpr := none
  cost_served_from_dc : Option LinExpr := none
  cost_served_from_facilities : Option LinExpr := none
  cost_operating_facilities : Option LinExpr := none
  cost_total : Option LinExpr := none
  deriving DecidableEq, Repr

/-- Embedding of `__add_objective` (lines 208-274): builds the four cost components in
source order (installation; operating per mode, left `None` for an
unrecognized mode; served from facilities; served from dc), then
`cost_total = cost_installation + (1 / len(scenarios)) *
(cost_operating + cost_served_from_dc + cost_served_from_facilities)`
and sets it as the minimization objective.  When `cost_operating` is
still `None`, the `+` raises `TypeError`; `1 / len(scenarios)` raises
`ZeroDivisionError` when there are no scenarios. -/
def objOperating (inst : Instance) (v : VariablesModel) : Except String (Option LinExpr) :=
  if inst.config.type_of_flexibility = FIXED_CAPACITY then some <$> objOpFixed inst v
  else if inst.config.type_of_flexibility = FLEX_CAPACITY then some <$> objOpFlex inst v
  else pure none

/-- Reading the operating-cost component when forming `cost_total`: when
the mode matched neither constant the component is still `None` and the
`+` in Python raises `TypeError`. -/
def requireSome (o : Option LinExpr) : Except String LinExpr :=
  match o with
  | some e => .ok e
  | none => .error ("TypeError: unsupported operand type for +: NoneType")

/-- Embedding of `__add_objective` continued: see `objOperating` for the mode branch. -/
def addObjective (inst : Instance) (v : VariablesModel) (st : ModelState) :
    Except String (ObjectiveModel × ModelState) := do
  let instE ← objInstallation inst v
  let opE ← objOperating inst v
  let facE ← objServedFacilities inst v
  let dcE ← objServedDc inst v
  let opExpr ← requireSome opE
  let invN ← pydiv 1 (inst.scenarios.length : ℚ)
  let total := addL instE (smulL invN (addL (addL opExpr dcE) facE))
  pure
    ({ cost_installation_facilities := some instE
       cost_served_from_dc := some dcE
       cost_served_from_facilities := some facE
       cost_operating_facilities := opE
       cost_total := some total },
     { st with objective := some total })

/-- Embedding of `__add_constr_A_1` (lines 296-303): for every facility,
`quicksum(Y[(i, q)] for q in capacity) == 1`. -/
def addConstrA1 (inst : Instance) (v : VariablesModel) : Except String (List Constr) :=
  mapE
    (fun ifc => do
      let ys ← mapE (fun qc => pyGet v.Y (yKey ifc.1 qc.1)) ifc.2.capacity
      pure { name := .rOpen ifc.1, lhs := sumVars ys, sense := .eqc, rhs := constL 1 })
    inst.facilities

/-- Iteration items of `__add_constr_A_2` (loop order `for i: for n: for t`). -/
def a2Items (inst : Instance) : List ((String × Facility) × String × ℕ) :=
  inst.facilities.flatMap fun ifc =>
    inst.scenarios.flatMap fun ns =>
      (List.range inst.periods).map fun (t : ℕ) => (ifc, ns.1, t)

/-- Embedding of `__add_constr_A_2` (lines 305-314): for every facility, scenario and
period, `quicksum(Z[(i, q, t, n)] for q in capacity) == 1`. -/
def addConstrA2 (inst : Instance) (v : VariablesModel) : Except String (List Constr) :=
  mapE
    (fun it => do
      let zs ← mapE (fun qc => pyGet v.Z (zKey it.1.1 qc.1 it.2.2 it.2.1)) it.1.2.capacity
      pure { name := .rActivation it.1.1 it.2.2 it.2.1, lhs := sumVars zs, sense := .eqc,
             rhs := constL 1 })
    (a2Items inst)

/-- Iteration items of `__add_constr_A_3` (loop order `for t: for n: for i`). -/
def a3Items (inst : Instance) : List (ℕ × String × String × Facility) :=
  (List.range inst.periods).flatMap fun (t : ℕ) =>
    inst.scenarios.flatMap fun ns =>
      inst.facilities.map fun ifc => (t, ns.1, ifc.1, ifc.2)

/-- Embedding of `__add_constr_A_3` (lines 316-335): per period, scenario and
facility, compute `max_capacity = max(capacity.values())`; for every tier
`q` whose capacity is strictly below it, sum `Z` over the tiers whose
capacity is strictly greater than that of `q` (a comparison of capacity
values, not of tier labels) and require the sum `<= 1 - Y[(i, q)]`. -/
def addConstrA3 (inst : Instance) (v : VariablesModel) : Except String (List Constr) := do
  let css ← mapE
    (fun it => do
      let maxCap ← pyMax (it.2.2.2.capacity.map Prod.snd)
      mapE
        (fun qc => do
          let zs ← mapE
            (fun qh => pyGet v.Z (zKey it.2.2.1 qh.1 it.1 it.2.1))
            (it.2.2.2.capacity.filter fun qh => qc.2 < qh.2)
          let y ← pyGet v.Y (yKey it.2.2.1 qc.1)
          pure { name := ConstrName.rOperating it.2.2.1 qc.1 it.1 it.2.1,
                 lhs := sumVars zs, sense := CSense.le,
                 rhs := subL (constL 1) (oneVar y) })
        (it.2.2.2.capacity.filter fun qc => qc.2 < maxCap))
    (a3Items inst)
  pure css.flatten

/-- Iteration items of `__add_constr_A_4` (loop order `for t: for i: for n`). -/
def a4Items (inst : Instance) : List (ℕ × (String × Facility) × String × Scenario) :=
  (List.range inst.periods).flatMap fun (t : ℕ) =>
    inst.facilities.flatMap fun ifc =>
      inst.scenarios.map fun ns => (t, ifc, ns.1, ns.2)

/-- Embedding of `__add_constr_A_4` (lines 337-383): per period, facility and
scenario, read the scenario fleet-size table for the `"facility"`
echelon; then under `FLEX_CAPACITY` add
`quicksum(X[(i, k, t, n)] * round(fleet_size[(i, k, t)]["fleet_size"], 1))
- quicksum(Z[(i, q, t, n)] * capacity for capacity > 0) <= 0`, under
`FIXED_CAPACITY` the same with `Y[(i, q)]` in place of `Z`; any other
mode adds nothing. -/
def addConstrA4 (inst : Instance) (v : VariablesModel) : Except String (List Constr) := do
  let css ← mapE
    (fun it => do
      let fs ← it.2.2.2.get_fleet_size ("facility")
      if inst.config.type_of_flexibility = FLEX_CAPACITY then do
        let xts ← mapE
          (fun kp => do
            let x ← pyGet v.X (xKey it.2.1.1 kp.1 it.1 it.2.2.1)
            let frec ← pyGet fs [PyVal.vs it.2.1.1, PyVal.vs kp.1, PyVal.vi it.1]
            let fv ← pyGet frec ("fleet_size")
            pure (pyRound 1 fv, x))
          it.2.2.2.pixels
        let zts ← mapE
          (fun qc => do
            let z ← pyGet v.Z (zKey it.2.1.1 qc.1 it.1 it.2.2.1)
            pure (qc.2, z))
          (it.2.1.2.capacity.filter fun qc => 0 < qc.2)
        pure [{ name := ConstrName.rCapacity it.2.1.1 it.1 it.2.2.1,
                lhs := subL (sumTerms xts) (sumTerms zts), sense := CSense.le,
                rhs := constL 0 }]
      else if inst.config.type_of_flexibility = FIXED_CAPACITY then do
        let xts ← mapE
          (fun kp => do
            let x ← pyGet v.X (xKey it.2.1.1 kp.1 it.1 it.2.2.1)
            let frec ← pyGet fs [PyVal.vs it.2.1.1, PyVal.vs kp.1, PyVal.vi it.1]
            let fv ← pyGet frec ("fleet_size")
            pure (pyRound 1 fv, x))
          it.2.2.2.pixels
        let yts ← mapE
          (fun qc => do
            let y ← pyGet v.Y (yKey it.2.1.1 qc.1)
            pure (qc.2, y))
          (it.2.1.2.capacity.filter fun qc => 0 < qc.2)
        pure [{ name := ConstrName.rCapacity it.2.1.1 it.1 it.2.2.1,
                lhs := subL (sumTerms xts) (sumTerms yts), sense := CSense.le,
                rhs := constL 0 }]
      else pure [])
    (a4Items inst)
  pure css.flatten

/-- Iteration items of `__add_constr_A_5` (loop order `for n: for t: for k`). -/
def a5Items (inst : Instance) : List (String × ℕ × String) :=
  inst.scenarios.flatMap fun ns =>
    (List.range inst.periods).flatMap fun (t : ℕ) =>
      ns.2.pixels.map fun kp => (ns.1, t, kp.1)

/-- Embedding of `__add_constr_A_5` (lines 385-396): for every scenario, period and
pixel, `quicksum(X[(i, k, n, t)]) + quicksum([W[(k, n, t)]]) >= 1`.
NOTE the lookup keys: the source indexes `X` and `W` with the scenario id
and the period swapped relative to the declared tuple orders
`(i, k, t, n)` and `(k, t, n)` used by `__add_variables`; the keys below
reproduce that verbatim: `[i, k, n, t]` and `[k, n, t]` with `n` a string
where the declaration holds an int period and vice versa. -/
def addConstrA5 (inst : Instance) (v : VariablesModel) : Except String (List Constr) :=
  mapE
    (fun it => do
      let xs ← mapE
        (fun ifc =>
          pyGet v.X [PyVal.vs ifc.1, PyVal.vs it.2.2, PyVal.vs it.1, PyVal.vi it.2.1])
        inst.facilities
      let w ← pyGet v.W [PyVal.vs it.2.2, PyVal.vs it.1, PyVal.vi it.2.1]
      pure { name := ConstrName.rDemand it.2.2 it.2.1 it.1,
             lhs := addL (sumVars xs) (sumVars [w]), sense := CSense.ge, rhs := constL 1 })
    (a5Items inst)

/-- Embedding of `__add_constraints` (lines 276-294): A.1 always; A.2 and A.3 only
under `FLEX_CAPACITY`; then A.4 and A.5. -/
def addConstrA23 (inst : Instance) (v : VariablesModel) : Except String (List Constr) :=
  if inst.config.type_of_flexibility = FLEX_CAPACITY then do
    let a2 ← addConstrA2 inst v
    let a3 ← addConstrA3 inst v
    pure (a2 ++ a3)
  else pure []

/-- Embedding of `__add_constraints` assembled: A.1, the flex-only block, A.4, A.5. -/
def addConstraints (inst : Instance) (v : VariablesModel) : Except String (List Constr) := do
  let a1 ← addConstrA1 inst v
  let a23 ← addConstrA23 inst v
  let a4 ← addConstrA4 inst v
  let a5 ← addConstrA5 inst v
  pure (a1 ++ a23 ++ a4 ++ a5)

/-- The builder state of `ExtendedSAAModel`: the underlying model, the
variable dicts and the objective components. -/
structure BuilderState : Type where
  model : ModelState := {}
  vars : VariablesModel := {}
  obj : ObjectiveModel := {}
  deriving DecidableEq, Repr

/-- The state right after `ExtendedSAAModel.__init__`: a fresh model,
empty variable dicts, all objective components `None`. -/
def initialBuilder : BuilderState := {}

/-- Embedding of `ExtendedSAAModel.build` (lines 130-138): add variables, objective
and constraints to the model (the source then calls `model.update()`,
which does not change the model contents). -/
def build (inst : Instance) (b : BuilderState) : Except String BuilderState := do
  let pv := addVariables inst b.model
  let po ← addObjective inst pv.1 pv.2
  let cs ← addConstraints inst pv.1
  pure
    { model := { po.2 with constrs := po.2.constrs ++ cs }
      vars := pv.1
      obj := po.1 }

end Src


namespace Src

theorem bindE_ok {α β : Type} {x : Except String α} {f : α → Except String β} {b : β} :
    x >>= f = .ok b ↔ ∃ a, x = .ok a ∧ f a = .ok b := by
  cases x <;> simp [Bind.bind, Except.bind]

theorem iteError_ok {α : Type} {c : Prop} [Decidable c] {e : String} {a : α} {b : α} :
    ((if c then Except.error e else Except.ok a) = Except.ok b) ↔ ¬c ∧ a = b := by
  split_ifs with hc <;> simp [hc]

def caEffectiveCapacity (veh : Vehicle) (drop : ℚ) : ℚ := veh.capacity / drop

def caIntraTime (veh : Vehicle) (zoneK density : ℚ) (sqrtFn : ℚ → ℚ) : ℚ :=
  veh.k * zoneK / (sqrtFn density * veh.speed_inter_stop)

def caTourTimePerCustomer (veh : Vehicle) (zoneK density drop : ℚ) (sqrtFn : ℚ → ℚ) : ℚ :=
  veh.time_set_up + veh.time_service * drop + caIntraTime veh zoneK density sqrtFn

def caTourDenom (veh : Vehicle) (zoneK density drop distance : ℚ) (isFE : Bool)
    (sqrtFn : ℚ → ℚ) : ℚ :=
  (if isFE then 0
   else caEffectiveCapacity veh drop * caTourTimePerCustomer veh zoneK density drop sqrtFn) +
    veh.time_prep + veh.time_loading_per_item * caEffectiveCapacity veh drop * drop +
    2 * distance * veh.k / veh.speed_line_haul

def caFleetSize (veh : Vehicle) (zoneK area density drop distance : ℚ) (isFE : Bool)
    (sqrtFn : ℚ → ℚ) : ℚ :=
  area * density /
    (veh.t_max / caTourDenom veh zoneK density drop distance isFE sqrtFn *
      caEffectiveCapacity veh drop)

theorem computeCore_ok_fleet {veh : Vehicle} {zoneK area density drop distance : ℚ}
    {isFE : Bool} {sqrtFn : ℚ → ℚ} {p : CAResult}
    (h : computeCore veh zoneK area density drop distance isFE sqrtFn = .ok p) :
    drop ≠ 0 ∧ ¬density < 0 ∧ sqrtFn density * veh.speed_inter_stop ≠ 0 ∧
      veh.speed_line_haul ≠ 0 ∧
      caTourDenom veh zoneK density drop distance isFE sqrtFn ≠ 0 ∧
      veh.t_max / caTourDenom veh zoneK density drop distance isFE sqrtFn *
          caEffectiveCapacity veh drop ≠ 0 ∧
      p.average_fleet_size =
        caFleetSize veh zoneK area density drop distance isFE sqrtFn := by
  unfold computeCore at h
  cases isFE with
  | false =>
    simp only [pydiv, pysqrt, Bool.false_eq_true, if_false] at h
    rw [bindE_ok] at h
    obtain ⟨x1, hx1, h⟩ := h
    rw [iteError_ok] at hx1
    obtain ⟨hc1, rfl⟩ := hx1
    rw [bindE_ok] at h
    obtain ⟨x2, hx2, h⟩ := h
    rw [iteError_ok] at hx2
    obtain ⟨hc2, rfl⟩ := hx2
    rw [bindE_ok] at h
    obtain ⟨x3, hx3, h⟩ := h
    rw [iteError_ok] at hx3
    obtain ⟨hc3, rfl⟩ := hx3
    rw [bindE_ok] at h
    obtain ⟨x4, hx4, h⟩ := h
    rw [iteError_ok] at hx4
    obtain ⟨hc4, rfl⟩ := hx4
    rw [bindE_ok] at h
    obtain ⟨x5, hx5, h⟩ := h
    rw [iteError_ok] at hx5
    obtain ⟨hc5, rfl⟩ := hx5
    rw [bindE_ok] at h
    obtain ⟨x6, hx6, h⟩ := h
    rw [iteError_ok] at hx6
    obtain ⟨hc6, rfl⟩ := hx6
    rw [bindE_ok] at h
    obtain ⟨x7, hx7, h⟩ := h
    rw [iteError_ok] at hx7
    obtain ⟨hc7, rfl⟩ := hx7
    rw [bindE_ok] at h
    obtain ⟨x8, hx8, h⟩ := h
    rw [iteError_ok] at hx8
    obtain ⟨hc8, rfl⟩ := hx8
    rw [bindE_ok] at h
    obtain ⟨x9, hx9, h⟩ := h
    rw [iteError_ok] at hx9
    obtain ⟨hc9, rfl⟩ := hx9
    rw [bindE_ok] at h
    obtain ⟨x10, hx10, h⟩ := h
    injection hx10 with hx10
    subst hx10
    injection h with h
    subst h
    refine ⟨hc1, hc2, hc3, hc4, ?_, ?_, ?_⟩
    · simpa [caTourDenom, caEffectiveCapacity, caTourTimePerCustomer, caIntraTime] using hc5
    · simpa [caTourDenom, caEffectiveCapacity, caTourTimePerCustomer, caIntraTime] using hc6
    · simp [caFleetSize, caTourDenom, caEffectiveCapacity, caTourTimePerCustomer, caIntraTime]
  | true =>
    simp only [pydiv, pysqrt, if_true] at h
    rw [bindE_ok] at h
    obtain ⟨x1, hx1, h⟩ := h
    rw [iteError_ok] at hx1
    obtain ⟨hc1, rfl⟩ := hx1
    rw [bindE_ok] at h
    obtain ⟨x2, hx2, h⟩ := h
    rw [iteError_ok] at hx2
    obtain ⟨hc2, rfl⟩ := hx2
    rw [bindE_ok] at h
    obtain ⟨x3, hx3, h⟩ := h
    rw [iteError_ok] at hx3
    obtain ⟨hc3, rfl⟩ := hx3
    rw [bindE_ok] at h
    obtain ⟨x4, hx4, h⟩ := h
    rw [iteError_ok] at hx4
    obtain ⟨hc4, rfl⟩ := hx4
    rw [bindE_ok] at h
    obtain ⟨x5, hx5, h⟩ := h
    rw [iteError_ok] at hx5
    obtain ⟨hc5, rfl⟩ := hx5
    rw [bindE_ok] at h
    obtain ⟨x6, hx6, h⟩ := h
    rw [iteError_ok] at hx6
    obtain ⟨hc6, rfl⟩ := hx6
    rw [bindE_ok] at h
    obtain ⟨x7, hx7, h⟩ := h
    rw [iteError_ok] at hx7
    obtain ⟨hc7, rfl⟩ := hx7
    rw [bindE_ok] at h
    obtain ⟨x8, hx8, h⟩ := h
    injection hx8 with hx8
    subst hx8
    injection h with h
    subst h
    refine ⟨hc1, hc2, hc3, hc4, ?_, ?_, ?_⟩
    · simpa [caTourDenom, caEffectiveCapacity, caTourTimePerCustomer, caIntraTime] using hc5
    · simpa [caTourDenom, caEffectiveCapacity, caTourTimePerCustomer, caIntraTime] using hc6
    · simp [caFleetSize, caTourDenom, caEffectiveCapacity, caTourTimePerCustomer, caIntraTime]

end Src

namespace Src

/-- The density-weighted fully-loaded-tours denominator in the non
line-haul branch splits into a part linear in the density and a part
linear in its square root. -/
theorem caTourDenom_mul_density {veh : Vehicle} {zoneK drop distance d : ℚ} {sq : ℚ → ℚ}
    (hsd : sq d ≠ 0) (hsq : sq d * sq d = d) (hsis : veh.speed_inter_stop ≠ 0) :
    d * caTourDenom veh zoneK d drop distance false sq =
      (veh.capacity / drop * (veh.time_set_up + veh.time_service * drop) +
          (veh.time_prep + veh.time_loading_per_item * (veh.capacity / drop) * drop +
            2 * distance * veh.k / veh.speed_line_haul)) * d +
        veh.capacity / drop * (veh.k * zoneK / veh.speed_inter_stop) * sq d := by
  have key : d * (veh.k * zoneK / (sq d * veh.speed_inter_stop)) =
      veh.k * zoneK / veh.speed_inter_stop * sq d := by
    nth_rewrite 1 [← hsq]
    field_simp
    ring
  unfold caTourDenom caTourTimePerCustomer caIntraTime caEffectiveCapacity
  simp only [Bool.false_eq_true, if_false]
  linear_combination (veh.capacity / drop) * key

/-- Claim C5: for every tuple the CA engine computes with positive inputs
(area, drop, density, vehicle capacity, speeds and route-duration limit
all positive, the remaining time / circuit-factor / distance parameters
nonnegative), the computed `average_fleet_size` is strictly positive;
and, holding area, drop, distance and all vehicle parameters fixed,
`average_fleet_size` is strictly increasing in the zone density.
`sq` plays the role of `math.sqrt`, constrained at the two densities. -/
theorem C5_average_fleet_size_pos_strictMono {veh : Vehicle} {zoneK area drop distance : ℚ}
    {d₁ d₂ : ℚ} {isFE : Bool} {sq : ℚ → ℚ} {p₁ p₂ : CAResult}
    (h₁ : computeCore veh zoneK area d₁ drop distance isFE sq = .ok p₁)
    (h₂ : computeCore veh zoneK area d₂ drop distance isFE sq = .ok p₂)
    (harea : 0 < area) (hdrop : 0 < drop) (hcap : 0 < veh.capacity)
    (hsis : 0 < veh.speed_inter_stop) (hslh : 0 < veh.speed_line_haul)
    (htmax : 0 < veh.t_max) (hsetup : 0 ≤ veh.time_set_up) (hserv : 0 ≤ veh.time_service)
    (hprep : 0 ≤ veh.time_prep) (hload : 0 ≤ veh.time_loading_per_item)
    (hk : 0 ≤ veh.k) (hzk : 0 ≤ zoneK) (hdist : 0 ≤ distance)
    (hd₁ : 0 < d₁) (hd₂ : 0 < d₂) (hlt : d₁ < d₂)
    (hs₁ : 0 < sq d₁) (hs₂ : 0 < sq d₂)
    (hsq₁ : sq d₁ * sq d₁ = d₁) (hsq₂ : sq d₂ * sq d₂ = d₂) :
    0 < p₁.average_fleet_size ∧ p₁.average_fleet_size < p₂.average_fleet_size := by
  obtain ⟨hdr₁, -, -, -, hD₁, -, hfs₁⟩ := computeCore_ok_fleet h₁
  obtain ⟨-, -, -, -, hD₂, -, hfs₂⟩ := computeCore_ok_fleet h₂
  have he : 0 < veh.capacity / drop := div_pos hcap hdrop
  have hte : 0 < veh.t_max * (veh.capacity / drop) := mul_pos htmax he
  have hC0 : 0 ≤ veh.time_prep + veh.time_loading_per_item * (veh.capacity / drop) * drop +
      2 * distance * veh.k / veh.speed_line_haul := by
    have h1 : 0 ≤ veh.time_loading_per_item * (veh.capacity / drop) * drop :=
      mul_nonneg (mul_nonneg hload he.le) hdrop.le
    have h2 : 0 ≤ 2 * distance * veh.k / veh.speed_line_haul :=
      div_nonneg (mul_nonneg (mul_nonneg (by norm_num) hdist) hk) hslh.le
    linarith
  have hDnonneg : ∀ d : ℚ, 0 < sq d →
      0 ≤ caTourDenom veh zoneK d drop distance isFE sq := by
    intro d hsd
    have hintra : 0 ≤ caIntraTime veh zoneK d sq :=
      div_nonneg (mul_nonneg hk hzk) (mul_pos hsd hsis).le
    have httpc : 0 ≤ caTourTimePerCustomer veh zoneK d drop sq := by
      unfold caTourTimePerCustomer
      have : 0 ≤ veh.time_service * drop := mul_nonneg hserv hdrop.le
      linarith
    have hmul : 0 ≤ caEffectiveCapacity veh drop * caTourTimePerCustomer veh zoneK d drop sq := by
      unfold caEffectiveCapacity
      exact mul_nonneg he.le httpc
    unfold caTourDenom caEffectiveCapacity
    unfold caEffectiveCapacity at hmul
    cases isFE with
    | true =>
      simp only [if_true]
      linarith
    | false =>
      simp only [Bool.false_eq_true, if_false]
      linarith
  have hD₁pos : 0 < caTourDenom veh zoneK d₁ drop distance isFE sq :=
    lt_of_le_of_ne (hDnonneg d₁ hs₁) (Ne.symm hD₁)
  have hD₂pos : 0 < caTourDenom veh zoneK d₂ drop distance isFE sq :=
    lt_of_le_of_ne (hDnonneg d₂ hs₂) (Ne.symm hD₂)
  have hfleq : ∀ d : ℚ, caTourDenom veh zoneK d drop distance isFE sq ≠ 0 →
      caFleetSize veh zoneK area d drop distance isFE sq =
        area * d * caTourDenom veh zoneK d drop distance isFE sq /
          (veh.t_max * (veh.capacity / drop)) := by
    intro d hD
    have hne : veh.t_max / caTourDenom veh zoneK d drop distance isFE sq *
        (veh.capacity / drop) ≠ 0 :=
      mul_ne_zero (div_ne_zero htmax.ne' hD) he.ne'
    unfold caFleetSize caEffectiveCapacity
    rw [div_eq_div_iff hne hte.ne']
    field_simp [hD]
    ring
  have hfs₁' : p₁.average_fleet_size =
      area * d₁ * caTourDenom veh zoneK d₁ drop distance isFE sq /
        (veh.t_max * (veh.capacity / drop)) := by
    rw [hfs₁, hfleq d₁ hD₁]
  have hfs₂' : p₂.average_fleet_size =
      area * d₂ * caTourDenom veh zoneK d₂ drop distance isFE sq /
        (veh.t_max * (veh.capacity / drop)) := by
    rw [hfs₂, hfleq d₂ hD₂]
  have hcore : d₁ * caTourDenom veh zoneK d₁ drop distance isFE sq <
      d₂ * caTourDenom veh zoneK d₂ drop distance isFE sq := by
    cases isFE with
    | true =>
      have hsame : caTourDenom veh zoneK d₁ drop distance true sq =
          caTourDenom veh zoneK d₂ drop distance true sq := by
        unfold caTourDenom
        simp
      rw [hsame]
      exact mul_lt_mul_of_pos_right hlt hD₂pos
    | false =>
      rw [caTourDenom_mul_density hs₁.ne' hsq₁ hsis.ne',
        caTourDenom_mul_density hs₂.ne' hsq₂ hsis.ne']
      have hA : 0 ≤ veh.capacity / drop * (veh.time_set_up + veh.time_service * drop) +
          (veh.time_prep + veh.time_loading_per_item * (veh.capacity / drop) * drop +
            2 * distance * veh.k / veh.speed_line_haul) := by
        have h1 : 0 ≤ veh.capacity / drop * (veh.time_set_up + veh.time_service * drop) :=
          mul_nonneg he.le (by nlinarith)
        linarith
      have hB : 0 ≤ veh.capacity / drop * (veh.k * zoneK / veh.speed_inter_stop) :=
        mul_nonneg he.le (div_nonneg (mul_nonneg hk hzk) hsis.le)
      have hs12 : sq d₁ < sq d₂ := by nlinarith
      rcases lt_or_eq_of_le hA with hApos | hAzero
      · have h1 := mul_lt_mul_of_pos_left hlt hApos
        have h2 := mul_le_mul_of_nonneg_left hs12.le hB
        linarith
      · rcases lt_or_eq_of_le hB with hBpos | hBzero
        · have h1 := mul_le_mul_of_nonneg_left hlt.le hA
          have h2 := mul_lt_mul_of_pos_left hs12 hBpos
          linarith
        · exfalso
          have hzero : d₁ * caTourDenom veh zoneK d₁ drop distance false sq = 0 := by
            rw [caTourDenom_mul_density hs₁.ne' hsq₁ hsis.ne', ← hAzero, ← hBzero]
            ring
          rcases mul_eq_zero.mp hzero with hz | hz
          · exact hd₁.ne' hz
          · exact hD₁ hz
  refine ⟨?_, ?_⟩
  · rw [hfs₁']
    exact div_pos (mul_pos (mul_pos harea hd₁) hD₁pos) hte
  · rw [hfs₁', hfs₂']
    have h3 : area * (d₁ * caTourDenom veh zoneK d₁ drop distance isFE sq) <
        area * (d₂ * caTourDenom veh zoneK d₂ drop distance isFE sq) :=
      mul_lt_mul_of_pos_left hcore harea
    exact (div_lt_div_iff_of_pos_right hte).mpr (by rw [mul_assoc, mul_assoc]; exact h3)

end Src

namespace Src

/-- A concrete vehicle used to evaluate the fleet-size theorems. -/
def wVeh : Vehicle :=
  { id_vehicle := "v", type_vehicle := "small", capacity := 1, cost_fixed := 0,
    cost_hour := 0, cost_km := 0, cost_item := 0, time_set_up := 1, time_service := 0,
    time_prep := 0, time_loading_per_item := 0, t_max := 1, speed_line_haul := 1,
    speed_inter_stop := 1, k := 0 }

/-- A square-root oracle correct at the two densities 1 and 4. -/
def wSq : ℚ → ℚ := fun x => if x = 4 then 2 else 1

/-- The CA result at density 1 for `wVeh`. -/
def wP₁ : CAResult := ⟨1, 1, 0, 1, 1, 1, 1, 1, 1, 0, 0, 0, 0, 0, 0, 0⟩

/-- The CA result at density 4 for `wVeh`. -/
def wP₂ : CAResult := ⟨1, 1, 0, 1, 1, 1, 1, 1, 4, 0, 0, 0, 0, 0, 0, 0⟩

/-- Witness for C5 at densities 1 and 4. -/
theorem C5_witness :
    computeCore wVeh 0 1 1 1 0 false wSq = .ok wP₁ ∧
      computeCore wVeh 0 1 4 1 0 false wSq = .ok wP₂ ∧
      0 < wP₁.average_fleet_size ∧ wP₁.average_fleet_size < wP₂.average_fleet_size := by
  have h₁ : computeCore wVeh 0 1 1 1 0 false wSq = .ok wP₁ := by
    norm_num [computeCore, wVeh, wSq, wP₁, pydiv, pysqrt, bind, Except.bind, pure, Except.pure]
  have h₂ : computeCore wVeh 0 1 4 1 0 false wSq = .ok wP₂ := by
    norm_num [computeCore, wVeh, wSq, wP₂, pydiv, pysqrt, bind, Except.bind, pure, Except.pure]
  refine ⟨h₁, h₂, ?_⟩
  exact C5_average_fleet_size_pos_strictMono h₁ h₂ (by norm_num) (by norm_num)
    (by norm_num [wVeh]) (by norm_num [wVeh]) (by norm_num [wVeh]) (by norm_num [wVeh])
    (by norm_num [wVeh]) (by norm_num [wVeh]) (by norm_num [wVeh]) (by norm_num [wVeh])
    (by norm_num [wVeh]) (by norm_num) (by norm_num) (by norm_num) (by norm_num)
    (by norm_num) (by norm_num [wSq]) (by norm_num [wSq]) (by norm_num [wSq])
    (by norm_num [wSq])

end Src

namespace Src

theorem updFn_self {α : Type} (f : List PyVal → Option α) (k : List PyVal) (v : α) :
    updFn f k v k = some v := by simp [updFn]

theorem updFn_ne {α : Type} (f : List PyVal → Option α) (k k' : List PyVal) (v : α)
    (h : k' ≠ k) : updFn f k v k' = f k' := by simp [updFn, h]

/-- A 5-tuple key never coincides with a 4-tuple key. -/
theorem key5_ne_key4 (i j v : String) (t : ℕ) (w i' j' v' w' : String) :
    key5 i j v t w ≠ key4 i' j' v' w' := by
  simp [key5, key4]

/-- Variant of `foldE_invariant` that hands step membership to the
preservation argument. -/
theorem foldE_invariant_mem {σ α : Type} {P : σ → Prop} {f : σ → α → Except String σ}
    {l : List α} (hstep : ∀ s a s', a ∈ l → P s → f s a = .ok s' → P s') :
    ∀ {s s' : σ}, foldE f s l = .ok s' → P s → P s' := by
  induction l with
  | nil => intro s s' h hP; simp only [foldE] at h; cases h; exact hP
  | cons a as ih =>
    intro s s' h hP
    simp only [foldE] at h
    cases hf : f s a with
    | error e => rw [hf] at h; exact absurd h (by simp)
    | ok s₁ =>
      rw [hf] at h
      exact ih (fun s a' s'' ha' => hstep s a' s'' (by simp [ha'])) h
        (hstep s a s₁ (by simp) hP hf)

/-- A successful `compute_approximation_parameters` call replaces the
three tables by single-key updates at its 5-tuple key. -/
theorem computeApprox_ok_effect {cfg : ApproximationConfiguration}
    {dists : ApproximationDistances} {sq : ℚ → ℚ} {area density drop : ℚ}
    {i j w v : String} {t : ℕ} {m m' : Metrics}
    (h : computeApproximationParameters cfg dists sq area density drop i j w v t m = .ok m') :
    ∃ c f pr,
      m' = { costs := updFn m.costs (key5 i j v t w) c
             fleet_sizes := updFn m.fleet_sizes (key5 i j v t w) f
             parameters := updFn m.parameters (key5 i j v t w) pr } := by
  unfold computeApproximationParameters at h
  rw [bindE_ok] at h
  obtain ⟨veh, -, h⟩ := h
  rw [bindE_ok] at h
  obtain ⟨zone, -, h⟩ := h
  rw [bindE_ok] at h
  obtain ⟨dist, -, h⟩ := h
  rw [bindE_ok] at h
  obtain ⟨r, -, h⟩ := h
  injection h with h
  exact ⟨_, _, _, h.symm⟩

end Src

namespace Src

/-- Pointwise effect of a successful per-period step: only 5-tuple keys
of its own zone / period / scenario are touched. -/
theorem stepPeriod_ok_frame {cfg : ApproximationConfiguration}
    {dists : ApproximationDistances} {sq : ℚ → ℚ} {w j : String} {px : Pixel} {t : ℕ}
    {m m' : Metrics} (h : stepPeriod cfg dists sq w j px t m = .ok m')
    (key : List PyVal) (hkey : ∀ i v, key ≠ key5 i j v t w) :
    m'.costs key = m.costs key ∧ m'.fleet_sizes key = m.fleet_sizes key ∧
      m'.parameters key = m.parameters key := by
  unfold stepPeriod at h
  rw [bindE_ok] at h
  obtain ⟨stopT, -, h⟩ := h
  rw [bindE_ok] at h
  obtain ⟨density, -, h⟩ := h
  rw [bindE_ok] at h
  obtain ⟨dropT, -, h⟩ := h
  rw [bindE_ok] at h
  obtain ⟨demandT, -, h⟩ := h
  split_ifs at h with hdem
  · refine foldE_invariant_mem (P := fun mm =>
      mm.costs key = m.costs key ∧ mm.fleet_sizes key = m.fleet_sizes key ∧
        mm.parameters key = m.parameters key) ?_ h ⟨rfl, rfl, rfl⟩
    intro s a s' _ hP hstep
    obtain ⟨c, f, pr, rfl⟩ := computeApprox_ok_effect hstep
    refine ⟨?_, ?_, ?_⟩ <;>
      simp only [updFn_ne _ _ _ _ (hkey a.1 a.2)] <;> tauto
  · injection h with h
    subst h
    exact ⟨rfl, rfl, rfl⟩

/-- A successful per-period step preserves definedness of every entry. -/
theorem stepPeriod_ok_isSome {cfg : ApproximationConfiguration}
    {dists : ApproximationDistances} {sq : ℚ → ℚ} {w j : String} {px : Pixel} {t : ℕ}
    {m m' : Metrics} (h : stepPeriod cfg dists sq w j px t m = .ok m')
    (key : List PyVal) :
    ((m.costs key).isSome → (m'.costs key).isSome) ∧
      ((m.fleet_sizes key).isSome → (m'.fleet_sizes key).isSome) ∧
      ((m.parameters key).isSome → (m'.parameters key).isSome) := by
  unfold stepPeriod at h
  rw [bindE_ok] at h
  obtain ⟨stopT, -, h⟩ := h
  rw [bindE_ok] at h
  obtain ⟨density, -, h⟩ := h
  rw [bindE_ok] at h
  obtain ⟨dropT, -, h⟩ := h
  rw [bindE_ok] at h
  obtain ⟨demandT, -, h⟩ := h
  split_ifs at h with hdem
  · have hinv := foldE_invariant_mem (P := fun mm =>
      ((m.costs key).isSome → (mm.costs key).isSome) ∧
        ((m.fleet_sizes key).isSome → (mm.fleet_sizes key).isSome) ∧
        ((m.parameters key).isSome → (mm.parameters key).isSome)) ?_ h
      ⟨id, id, id⟩
    · exact hinv
    · intro s a s' _ hP hstep
      obtain ⟨c, f, pr, rfl⟩ := computeApprox_ok_effect hstep
      by_cases hk : key = key5 a.1 j a.2 t w
      · refine ⟨fun _ => ?_, fun _ => ?_, fun _ => ?_⟩ <;> simp [hk, updFn_self]
      · simp only [updFn_ne _ _ _ _ hk]
        exact hP
  · injection h with h
    subst h
    exact ⟨id, id, id⟩

/-- A zero-demand period performs no writes at all: the step returns the
metrics unchanged (all reads up to the demand test may still fail, but a
successful step with non-positive demand is the identity). -/
theorem stepPeriod_zero_demand {cfg : ApproximationConfiguration}
    {dists : ApproximationDistances} {sq : ℚ → ℚ} {w j : String} {px : Pixel} {t : ℕ}
    {m m' : Metrics} {d : ℚ} (h : stepPeriod cfg dists sq w j px t m = .ok m')
    (hd : pyListGet px.demand_by_period t = .ok d) (hdpos : ¬0 < d) : m' = m := by
  unfold stepPeriod at h
  rw [bindE_ok] at h
  obtain ⟨stopT, -, h⟩ := h
  rw [bindE_ok] at h
  obtain ⟨density, -, h⟩ := h
  rw [bindE_ok] at h
  obtain ⟨dropT, -, h⟩ := h
  rw [bindE_ok] at h
  obtain ⟨demandT, hdem, h⟩ := h
  rw [hd] at hdem
  injection hdem with hdem
  subst hdem
  rw [if_neg hdpos] at h
  injection h with h
  exact h.symm

/-- On a positive-demand period a successful step leaves a defined entry
under the 5-tuple key of every `(facility, vehicle)` pair. -/
theorem stepPeriod_pos_demand_writes {cfg : ApproximationConfiguration}
    {dists : ApproximationDistances} {sq : ℚ → ℚ} {w j : String} {px : Pixel} {t : ℕ}
    {m m' : Metrics} {d : ℚ} (h : stepPeriod cfg dists sq w j px t m = .ok m')
    (hd : pyListGet px.demand_by_period t = .ok d) (hdpos : 0 < d)
    {i v : String} (hiv : (i, v) ∈ facVehPairs cfg) :
    (m'.costs (key5 i j v t w)).isSome ∧ (m'.fleet_sizes (key5 i j v t w)).isSome ∧
      (m'.parameters (key5 i j v t w)).isSome := by
  unfold stepPeriod at h
  rw [bindE_ok] at h
  obtain ⟨stopT, -, h⟩ := h
  rw [bindE_ok] at h
  obtain ⟨density, -, h⟩ := h
  rw [bindE_ok] at h
  obtain ⟨dropT, -, h⟩ := h
  rw [bindE_ok] at h
  obtain ⟨demandT, hdem, h⟩ := h
  rw [hd] at hdem
  injection hdem with hdem
  subst hdem
  rw [if_pos hdpos] at h
  obtain ⟨l₂, s₁, s₂, hstep, hrest, -⟩ := foldE_ok_of_mem hiv h
  obtain ⟨c, f, pr, rfl⟩ := computeApprox_ok_effect hstep
  refine foldE_invariant_mem (P := fun mm =>
    (mm.costs (key5 i j v t w)).isSome ∧ (mm.fleet_sizes (key5 i j v t w)).isSome ∧
      (mm.parameters (key5 i j v t w)).isSome) ?_ hrest ?_
  · intro s a s' _ hP hs
    obtain ⟨c', f', pr', rfl⟩ := computeApprox_ok_effect hs
    by_cases hk : key5 i j v t w = key5 a.1 j a.2 t w
    · refine ⟨?_, ?_, ?_⟩ <;> simp [updFn, hk]
    · simp only [updFn_ne _ _ _ _ hk]
      exact hP
  · simp [updFn_self]

end Src

namespace Src

/-- Characterization of the tables built by `__initialize_parameters`. -/
theorem initMetrics_lookup (cfg : ApproximationConfiguration) (key : List PyVal) :
    ((initMetrics cfg).costs key = if key ∈ initKeys cfg then some 0 else none) ∧
      ((initMetrics cfg).fleet_sizes key = if key ∈ initKeys cfg then some 0 else none) ∧
      ((initMetrics cfg).parameters key =
        if key ∈ initKeys cfg then some zeroParams else none) := by
  unfold initMetrics
  have main : ∀ (ks : List (List PyVal)) (m : Metrics),
      ((ks.foldl
          (fun m k =>
            { costs := updFn m.costs k 0
              fleet_sizes := updFn m.fleet_sizes k 0
              parameters := updFn m.parameters k zeroParams })
          m).costs key = if key ∈ ks then some 0 else m.costs key) ∧
        ((ks.foldl
          (fun m k =>
            { costs := updFn m.costs k 0
              fleet_sizes := updFn m.fleet_sizes k 0
              parameters := updFn m.parameters k zeroParams })
          m).fleet_sizes key = if key ∈ ks then some 0 else m.fleet_sizes key) ∧
        ((ks.foldl
          (fun m k =>
            { costs := updFn m.costs k 0
              fleet_sizes := updFn m.fleet_sizes k 0
              parameters := updFn m.parameters k zeroParams })
          m).parameters key = if key ∈ ks then some zeroParams else m.parameters key) := by
    intro ks
    induction ks with
    | nil => intro m; simp
    | cons k ks ih =>
      intro m
      simp only [List.foldl_cons, List.mem_cons]
      refine ⟨?_, ?_, ?_⟩
      · rw [(ih _).1]
        by_cases hks : key ∈ ks
        · simp [hks]
        · by_cases hk : key = k
          · simp [hks, hk, updFn_self]
          · simp [hks, hk, updFn_ne _ _ _ _ hk]
      · rw [(ih _).2.1]
        by_cases hks : key ∈ ks
        · simp [hks]
        · by_cases hk : key = k
          · simp [hks, hk, updFn_self]
          · simp [hks, hk, updFn_ne _ _ _ _ hk]
      · rw [(ih _).2.2]
        by_cases hks : key ∈ ks
        · simp [hks]
        · by_cases hk : key = k
          · simp [hks, hk, updFn_self]
          · simp [hks, hk, updFn_ne _ _ _ _ hk]
  exact main (initKeys cfg) emptyMetrics

end Src

namespace Src

/-- Keys produced by the initialization pass are exactly the 4-tuples of
facility, zone, vehicle and scenario identifiers of the configuration. -/
theorem mem_initKeys_iff (cfg : ApproximationConfiguration) (i j v w : String) :
    key4 i j v w ∈ initKeys cfg ↔
      (∃ sc, (w, sc) ∈ cfg.scenarios) ∧ (∃ fc, (i, fc) ∈ cfg.facilities) ∧
        (∃ px, (j, px) ∈ cfg.delivery_zones) ∧ ∃ vv, (v, vv) ∈ cfg.vehicles := by
  simp only [initKeys, List.mem_flatMap, List.mem_map, key4]
  constructor
  · rintro ⟨ws, hws, ifc, hifc, jp, hjp, vv, hvv, heq⟩
    simp only [List.cons.injEq, PyVal.vs.injEq] at heq
    obtain ⟨hi, hj, hv, hw, -⟩ := heq
    subst hi
    subst hj
    subst hv
    subst hw
    exact ⟨⟨ws.2, by simpa using hws⟩, ⟨ifc.2, by simpa using hifc⟩,
      ⟨jp.2, by simpa using hjp⟩, ⟨vv.2, by simpa using hvv⟩⟩
  · rintro ⟨⟨sc, hsc⟩, ⟨fc, hfc⟩, ⟨px, hpx⟩, ⟨vv, hvv⟩⟩
    exact ⟨(w, sc), hsc, (i, fc), hfc, (j, px), hpx, (v, vv), hvv, rfl⟩

/-- Every initialization key is a 4-tuple. -/
theorem mem_initKeys_shape {cfg : ApproximationConfiguration} {key : List PyVal}
    (h : key ∈ initKeys cfg) : ∃ i j v w, key = key4 i j v w := by
  simp only [initKeys, List.mem_flatMap, List.mem_map] at h
  obtain ⟨ws, -, ifc, -, jp, -, vv, -, heq⟩ := h
  exact ⟨ifc.1, jp.1, vv.1, ws.1, heq.symm⟩

/-- Membership in the `(scenario, pixel, period)` iteration space. -/
theorem mem_primaryItems_iff (cfg : ApproximationConfiguration) (w j : String)
    (px : Pixel) (t : ℕ) :
    (w, j, px, t) ∈ primaryItems cfg ↔
      ∃ sc, (w, sc) ∈ cfg.scenarios ∧ (j, px) ∈ sc.pixels ∧ t < cfg.periods := by
  simp only [primaryItems, List.mem_flatMap, List.mem_map, List.mem_range]
  constructor
  · rintro ⟨ws, hws, jp, hjp, t', ht', heq⟩
    simp only [Prod.mk.injEq] at heq
    obtain ⟨hw, hj, hpx, ht⟩ := heq
    subst hw
    subst ht
    refine ⟨ws.2, hws, ?_, ht'⟩
    have : jp = (j, px) := by
      cases jp
      simp only [Prod.mk.injEq]
      exact ⟨hj, hpx⟩
    rwa [this] at hjp
  · rintro ⟨sc, hsc, hpx, ht⟩
    exact ⟨(w, sc), hsc, (j, px), hpx, t, ht, rfl⟩

/-- Membership in the inner `(facility, vehicle)` iteration space. -/
theorem mem_facVehPairs_iff (cfg : ApproximationConfiguration) (i v : String) :
    (i, v) ∈ facVehPairs cfg ↔
      (∃ fc, (i, fc) ∈ cfg.facilities) ∧ ∃ vv, (v, vv) ∈ cfg.vehicles := by
  simp only [facVehPairs, List.mem_flatMap, List.mem_map]
  constructor
  · rintro ⟨ifc, hifc, vv, hvv, heq⟩
    simp only [Prod.mk.injEq] at heq
    obtain ⟨hi, hv⟩ := heq
    subst hi
    subst hv
    exact ⟨⟨ifc.2, hifc⟩, ⟨vv.2, hvv⟩⟩
  · rintro ⟨⟨fc, hfc⟩, ⟨vv, hvv⟩⟩
    exact ⟨(i, fc), hfc, (v, vv), hvv, rfl⟩

/-- The tuples for which the primary CA pass computes an entry: the zone
belongs to the scenario, the period is in range, the zone demand in that
period is positive, and the facility / vehicle identifiers come from the
respective collections. -/
def computedTuple (cfg : ApproximationConfiguration) (i j v : String) (t : ℕ)
    (w : String) : Prop :=
  (∃ sc px d, (w, sc) ∈ cfg.scenarios ∧ (j, px) ∈ sc.pixels ∧ t < cfg.periods ∧
    pyListGet px.demand_by_period t = .ok d ∧ 0 < d) ∧
    (∃ fc, (i, fc) ∈ cfg.facilities) ∧ ∃ vv, (v, vv) ∈ cfg.vehicles

/-- Where definedness of a cost entry after one period step can come
from: it was already defined, or this step wrote it (which requires
positive demand and a 5-tuple key of this step). -/
theorem stepPeriod_ok_isSome_source {cfg : ApproximationConfiguration}
    {dists : ApproximationDistances} {sq : ℚ → ℚ} {w j : String} {px : Pixel} {t : ℕ}
    {m m' : Metrics} (h : stepPeriod cfg dists sq w j px t m = .ok m') (key : List PyVal)
    (hsome : (m'.costs key).isSome ∨ (m'.fleet_sizes key).isSome ∨
      (m'.parameters key).isSome) :
    ((m.costs key).isSome ∨ (m.fleet_sizes key).isSome ∨ (m.parameters key).isSome) ∨
      ∃ i v d, key = key5 i j v t w ∧ (i, v) ∈ facVehPairs cfg ∧
        pyListGet px.demand_by_period t = .ok d ∧ 0 < d := by
  unfold stepPeriod at h
  rw [bindE_ok] at h
  obtain ⟨stopT, -, h⟩ := h
  rw [bindE_ok] at h
  obtain ⟨density, -, h⟩ := h
  rw [bindE_ok] at h
  obtain ⟨dropT, -, h⟩ := h
  rw [bindE_ok] at h
  obtain ⟨demandT, hdem, h⟩ := h
  split_ifs at h with hd
  · have hfold := foldE_invariant_mem (P := fun mm =>
      ((mm.costs key).isSome ∨ (mm.fleet_sizes key).isSome ∨ (mm.parameters key).isSome) →
        (((m.costs key).isSome ∨ (m.fleet_sizes key).isSome ∨ (m.parameters key).isSome) ∨
          ∃ i v d, key = key5 i j v t w ∧ (i, v) ∈ facVehPairs cfg ∧
            pyListGet px.demand_by_period t = .ok d ∧ 0 < d)) ?_ h (fun hx => Or.inl hx)
    · exact hfold hsome
    · intro s a s' ha hP hs
      obtain ⟨c, f, pr, rfl⟩ := computeApprox_ok_effect hs
      intro hx
      by_cases hk : key = key5 a.1 j a.2 t w
      · exact Or.inr ⟨a.1, a.2, demandT, hk, ha, hdem, hd⟩
      · apply hP
        simpa only [updFn_ne _ _ _ _ hk] using hx
  · injection h with h
    subst h
    exact Or.inl hsome

end Src

namespace Src

/-- After the primary CA pass, a 5-tuple entry is defined in the cost (or
fleet-size) table exactly when the tuple has positive demand and valid
components. -/
theorem runPrimary_key5_iff {cfg : ApproximationConfiguration}
    {dists : ApproximationDistances} {sq : ℚ → ℚ} {m : Metrics}
    (h : runPrimary cfg dists sq = .ok m) (i j v : String) (t : ℕ) (w : String) :
    ((m.costs (key5 i j v t w)).isSome ↔ computedTuple cfg i j v t w) ∧
      ((m.fleet_sizes (key5 i j v t w)).isSome ↔ computedTuple cfg i j v t w) ∧
      ((m.parameters (key5 i j v t w)).isSome ↔ computedTuple cfg i j v t w) := by
  have hfwd : ∀ i' j' v' t' w',
      ((m.costs (key5 i' j' v' t' w')).isSome ∨ (m.fleet_sizes (key5 i' j' v' t' w')).isSome ∨
        (m.parameters (key5 i' j' v' t' w')).isSome) → computedTuple cfg i' j' v' t' w' := by
    refine foldE_invariant_mem (P := fun mm => ∀ i' j' v' t' w',
      ((mm.costs (key5 i' j' v' t' w')).isSome ∨
        (mm.fleet_sizes (key5 i' j' v' t' w')).isSome ∨
        (mm.parameters (key5 i' j' v' t' w')).isSome) → computedTuple cfg i' j' v' t' w')
      ?_ h ?_
    · rintro s ⟨w₀, j₀, px₀, t₀⟩ s' ha hP hstep i' j' v' t' w' hsome
      rcases stepPeriod_ok_isSome_source hstep (key5 i' j' v' t' w') hsome with hold | hnew
      · exact hP i' j' v' t' w' hold
      · obtain ⟨i₂, v₂, d, hkeq, hpair, hdem, hd⟩ := hnew
        simp only [key5, List.cons.injEq, PyVal.vs.injEq, PyVal.vi.injEq] at hkeq
        obtain ⟨hi, hj, hv, ht, hw, -⟩ := hkeq
        have ht2 : t' = t₀ := by exact_mod_cast ht
        rw [hi, hj, hv, hw, ht2]
        obtain ⟨sc, hsc, hpx, htlt⟩ := (mem_primaryItems_iff cfg w₀ j₀ px₀ t₀).mp ha
        obtain ⟨hfac, hveh⟩ := (mem_facVehPairs_iff cfg i₂ v₂).mp hpair
        exact ⟨⟨sc, px₀, d, hsc, hpx, htlt, hdem, hd⟩, hfac, hveh⟩
    · intro i' j' v' t' w' hsome
      exfalso
      obtain ⟨h1, h2, h3⟩ := initMetrics_lookup cfg (key5 i' j' v' t' w')
      have hnot : key5 i' j' v' t' w' ∉ initKeys cfg := by
        intro hmem
        obtain ⟨a, b, c, dd, habc⟩ := mem_initKeys_shape hmem
        exact key5_ne_key4 i' j' v' t' w' a b c dd habc
      rw [if_neg hnot] at h1 h2 h3
      rcases hsome with hx | hx | hx <;> simp_all
  have hbwd : computedTuple cfg i j v t w →
      (m.costs (key5 i j v t w)).isSome ∧ (m.fleet_sizes (key5 i j v t w)).isSome ∧
        (m.parameters (key5 i j v t w)).isSome := by
    rintro ⟨⟨sc, px, d, hsc, hpx, htlt, hdem, hd⟩, hfac, hveh⟩
    have hitem : (w, j, px, t) ∈ primaryItems cfg :=
      (mem_primaryItems_iff cfg w j px t).mpr ⟨sc, hsc, hpx, htlt⟩
    obtain ⟨l₂, s₁, s₂, hstep, hrest, -⟩ := foldE_ok_of_mem hitem h
    have hpair : (i, v) ∈ facVehPairs cfg := (mem_facVehPairs_iff cfg i v).mpr ⟨hfac, hveh⟩
    have hwrite := stepPeriod_pos_demand_writes hstep hdem hd hpair
    refine foldE_invariant_mem (P := fun mm =>
      (mm.costs (key5 i j v t w)).isSome ∧ (mm.fleet_sizes (key5 i j v t w)).isSome ∧
        (mm.parameters (key5 i j v t w)).isSome) ?_ hrest hwrite
    rintro s ⟨w₀, j₀, px₀, t₀⟩ s' ha hP hs
    obtain ⟨hc, hf, hp⟩ := stepPeriod_ok_isSome (m := s) hs (key5 i j v t w)
    exact ⟨hc hP.1, hf hP.2.1, hp hP.2.2⟩
  refine ⟨⟨fun hx => hfwd i j v t w (Or.inl hx), fun hx => (hbwd hx).1⟩,
    ⟨fun hx => hfwd i j v t w (Or.inr (Or.inl hx)), fun hx => (hbwd hx).2.1⟩,
    ⟨fun hx => hfwd i j v t w (Or.inr (Or.inr hx)), fun hx => (hbwd hx).2.2⟩⟩

/-- After the primary CA pass every 4-tuple key still holds exactly its
initialization value. -/
theorem runPrimary_key4_preserved {cfg : ApproximationConfiguration}
    {dists : ApproximationDistances} {sq : ℚ → ℚ} {m : Metrics}
    (h : runPrimary cfg dists sq = .ok m) (i j v w : String) :
    m.costs (key4 i j v w) = (initMetrics cfg).costs (key4 i j v w) ∧
      m.fleet_sizes (key4 i j v w) = (initMetrics cfg).fleet_sizes (key4 i j v w) ∧
      m.parameters (key4 i j v w) = (initMetrics cfg).parameters (key4 i j v w) := by
  refine foldE_invariant_mem (P := fun mm =>
    mm.costs (key4 i j v w) = (initMetrics cfg).costs (key4 i j v w) ∧
      mm.fleet_sizes (key4 i j v w) = (initMetrics cfg).fleet_sizes (key4 i j v w) ∧
      mm.parameters (key4 i j v w) = (initMetrics cfg).parameters (key4 i j v w))
    ?_ h ⟨rfl, rfl, rfl⟩
  rintro s ⟨w₀, j₀, px₀, t₀⟩ s' ha hP hs
  have hframe := stepPeriod_ok_frame hs (key4 i j v w)
    (fun a b => (key5_ne_key4 a j₀ b t₀ w₀ i j v w).symm)
  exact ⟨hframe.1.trans hP.1, hframe.2.1.trans hP.2.1, hframe.2.2.trans hP.2.2⟩

end Src

namespace Src

/-- In an association list with distinct keys (as every Python dict is),
a key determines its value. -/
theorem assoc_nodup_unique {α : Type} :
    ∀ {l : List (String × α)} {k : String} {a b : α},
      (l.map Prod.fst).Nodup → (k, a) ∈ l → (k, b) ∈ l → a = b := by
  intro l
  induction l with
  | nil => intro k a b _ ha; exact absurd ha (by simp)
  | cons hd tl ih =>
    intro k a b hnd ha hb
    simp only [List.map_cons, List.nodup_cons] at hnd
    rcases List.mem_cons.mp ha with rfl | ha' <;> rcases List.mem_cons.mp hb with hb' | hb'
    · exact congrArg Prod.snd hb'.symm
    · exact absurd (List.mem_map.mpr ⟨(k, b), hb', rfl⟩) hnd.1
    · rw [← hb'] at hnd
      exact absurd (List.mem_map.mpr ⟨(k, a), ha', rfl⟩) hnd.1
    · exact ih hnd.2 ha' hb'

/-- Claim C9: after the (initialization plus) primary per-tuple pass of
`run_continuous_approximation`, the cost and fleet-size tables hold a
5-tuple entry `(i, j, v, t, w)` exactly for the tuples whose zone demand
in that period and scenario is positive (with `i`, `v` ranging over the
configured facilities and vehicles); the zero-valued entries written by
`__initialize_parameters` live under 4-tuple keys `(i, j, v, w)` and are
left untouched; and `_add_first_echelon_costs`, whenever it returns at
all, returns the tables unchanged, so the tables are never dense over
periods. -/
theorem C9_tables_sparse_exactly_positive_demand {cfg : ApproximationConfiguration}
    {dists : ApproximationDistances} {sq : ℚ → ℚ} {m : Metrics}
    (h : runPrimary cfg dists sq = .ok m) :
    (∀ i j v t w,
      ((m.costs (key5 i j v t w)).isSome ↔ computedTuple cfg i j v t w) ∧
        ((m.fleet_sizes (key5 i j v t w)).isSome ↔ computedTuple cfg i j v t w)) ∧
      (∀ i j v w, key4 i j v w ∈ initKeys cfg →
        m.costs (key4 i j v w) = some 0 ∧ m.fleet_sizes (key4 i j v w) = some 0) ∧
      ∀ m₀ m₁ : Metrics, addFirstEchelonCosts cfg m₀ = .ok m₁ → m₁ = m₀ := by
  refine ⟨fun i j v t w => ⟨(runPrimary_key5_iff h i j v t w).1,
    (runPrimary_key5_iff h i j v t w).2.1⟩, fun i j v w hmem => ?_, fun m₀ m₁ hinj => ?_⟩
  · obtain ⟨h1, h2, -⟩ := runPrimary_key4_preserved h i j v w
    obtain ⟨h3, h4, -⟩ := initMetrics_lookup cfg (key4 i j v w)
    rw [if_pos hmem] at h3 h4
    exact ⟨h1.trans h3, h2.trans h4⟩
  · unfold addFirstEchelonCosts at hinj
    cases hsc : cfg.scenarios with
    | nil =>
      rw [hsc] at hinj
      simp only [foldE] at hinj
      injection hinj with hinj
      exact hinj.symm
    | cons ws rest =>
      rw [hsc] at hinj
      simp only [foldE, Scenario.demandsAttr, bind, Except.bind] at hinj
      exact absurd hinj (by simp)

/-- Claim C6: a `(zone, period)` pair whose demand is zero in a scenario
produces no 5-tuple entry for any `(facility, vehicle)` combination: the
per-tuple formula is never invoked for it (the successful run below is
independent of the drop and density values of that period). -/
theorem C6_zero_demand_generates_nothing {cfg : ApproximationConfiguration}
    {dists : ApproximationDistances} {sq : ℚ → ℚ} {m : Metrics} {w j : String}
    {sc : Scenario} {px : Pixel} {t : ℕ}
    (hnd : (cfg.scenarios.map Prod.fst).Nodup)
    (hnd2 : (sc.pixels.map Prod.fst).Nodup)
    (hsc : (w, sc) ∈ cfg.scenarios) (hpx : (j, px) ∈ sc.pixels)
    (hd : pyListGet px.demand_by_period t = .ok 0)
    (h : runPrimary cfg dists sq = .ok m) :
    ∀ i v, m.costs (key5 i j v t w) = none ∧ m.fleet_sizes (key5 i j v t w) = none ∧
      m.parameters (key5 i j v t w) = none := by
  intro i v
  have hnot : ¬computedTuple cfg i j v t w := by
    rintro ⟨⟨sc', px', d, hsc', hpx', -, hd', hdpos⟩, -, -⟩
    have hsceq : sc' = sc := assoc_nodup_unique hnd hsc' hsc
    subst hsceq
    have hpxeq : px' = px := assoc_nodup_unique hnd2 hpx' hpx
    subst hpxeq
    rw [hd] at hd'
    injection hd' with hd'
    rw [← hd'] at hdpos
    exact lt_irrefl 0 hdpos
  obtain ⟨h1, h2, h3⟩ := runPrimary_key5_iff h i j v t w
  refine ⟨?_, ?_, ?_⟩
  · cases hx : m.costs (key5 i j v t w) with
    | none => rfl
    | some c => exact absurd (h1.mp (by simp [hx])) hnot
  · cases hx : m.fleet_sizes (key5 i j v t w) with
    | none => rfl
    | some c => exact absurd (h2.mp (by simp [hx])) hnot
  · cases hx : m.parameters (key5 i j v t w) with
    | none => rfl
    | some c => exact absurd (h3.mp (by simp [hx])) hnot

end Src

namespace Src

/-- A concrete pixel whose single period has zero demand (and degenerate
drop and stop data). -/
def wPx : Pixel :=
  { id_pixel := "p",
    geo_point := { lon := 0, lat := 0, area_surface := 1, speed_intra_stop := [] },
    demand_by_period := [0], drop_by_period := [0], stop_by_period := [0],
    k := 0, is_available := true }

/-- A concrete facility. -/
def wFac : Facility :=
  { id_facility := "f",
    geo_point := { lon := 0, lat := 0, area_surface := 0, speed_intra_stop := [] },
    capacity := [("q1", 0)], cost_installation := [("q1", 0)],
    cost_operation := [("q1", [0])], cost_sourcing := 0, is_depot := false }

/-- A concrete scenario holding the zero-demand pixel. -/
def wScen : Scenario := { id_scenario := "1", pixels := [("p", wPx)], periods := 1 }

/-- A concrete CA configuration with one scenario, facility, zone and
vehicle and one period. -/
def wCfg : ApproximationConfiguration :=
  { scenarios := [("1", wScen)], facilities := [("f", wFac)],
    delivery_zones := [("p", wPx)], vehicles := [("v", wVeh)], periods := 1 }

/-- Concrete distance tables for `wCfg`. -/
def wDists : ApproximationDistances :=
  { facility_delivery_zone := [(("f", "p"), 1)], facilities := [("f", 1)] }

theorem C9_witness :
    runPrimary wCfg wDists wSq = .ok (initMetrics wCfg) ∧
      (((initMetrics wCfg).costs (key5 ("f") ("p") ("v") 0 ("1"))).isSome ↔
        computedTuple wCfg ("f") ("p") ("v") 0 ("1")) ∧
      (initMetrics wCfg).costs (key4 ("f") ("p") ("v") ("1")) = some 0 ∧
      ∀ m₀ m₁ : Metrics, addFirstEchelonCosts wCfg m₀ = .ok m₁ → m₁ = m₀ := by
  have hrun : runPrimary wCfg wDists wSq = .ok (initMetrics wCfg) := rfl
  obtain ⟨ha, hb, hc⟩ := C9_tables_sparse_exactly_positive_demand hrun
  exact ⟨hrun, (ha ("f") ("p") ("v") 0 ("1")).1,
    (hb ("f") ("p") ("v") ("1") (by decide)).1, hc⟩

theorem C6_witness :
    pyListGet wPx.demand_by_period 0 = .ok 0 ∧
      runPrimary wCfg wDists wSq = .ok (initMetrics wCfg) ∧
      (initMetrics wCfg).costs (key5 ("f") ("p") ("v") 0 ("1")) = none ∧
      (initMetrics wCfg).fleet_sizes (key5 ("f") ("p") ("v") 0 ("1")) = none := by
  have hrun : runPrimary wCfg wDists wSq = .ok (initMetrics wCfg) := rfl
  have hd : pyListGet wPx.demand_by_period 0 = .ok 0 := rfl
  have hmain := C6_zero_demand_generates_nothing (by decide) (by decide)
    (by simp [wCfg] : (("1" : String), wScen) ∈ wCfg.scenarios)
    (by simp [wScen] : (("p" : String), wPx) ∈ wScen.pixels) hd hrun ("f") ("v")
  exact ⟨hd, hrun, hmain.1, hmain.2.1⟩

end Src

namespace Src

/-- Claim C2 (code defect): `Instance.__compute_continuous_approximation`
cannot hand the CA tables to the Scenario objects: its
`ContinuousApproximation(...)` call omits the required `pixels` parameter
and raises `TypeError` (and the repository never calls
`Scenario.set_costs` / `Scenario.set_fleet_size` anywhere). -/
theorem C2_instance_ca_wiring_raises :
    Instance.computeContinuousApproximation [("f", wFac)] [("v", wVeh)] [("1", wScen)] =
      .error
        ("TypeError: ContinuousApproximation init missing 1 required positional argument: pixels") :=
  rfl

/-- Claim C3 (code defect): the first-echelon injection pass fails on its
first scenario, because it reads `scenario.demands` and the `Scenario`
class defines no such attribute; it therefore never adds any line-haul
cost or fleet size to the other vehicle entries. -/
theorem C3_first_echelon_pass_raises :
    addFirstEchelonCosts wCfg emptyMetrics =
      .error ("AttributeError: Scenario object has no attribute demands") :=
  rfl

/-- Every element of a successful fallible map is produced by some list
element. -/
theorem mapE_mem_of_ok {α β : Type} {f : α → Except String β} :
    ∀ {l : List α} {ys : List β} {b : β}, mapE f l = .ok ys → b ∈ ys →
      ∃ a ∈ l, f a = .ok b := by
  intro l
  induction l with
  | nil =>
    intro ys b h hb
    simp only [mapE] at h
    cases h
    exact absurd hb (by simp)
  | cons x xs ih =>
    intro ys b h hb
    simp only [mapE] at h
    cases hf : f x with
    | error e => rw [hf] at h; exact absurd h (by simp)
    | ok c =>
      rw [hf] at h
      cases hm : mapE f xs with
      | error e => rw [hm] at h; exact absurd h (by simp)
      | ok bs =>
        rw [hm] at h
        cases h
        rcases List.mem_cons.mp hb with rfl | hb'
        · exact ⟨x, by simp, hf⟩
        · obtain ⟨a, ha, hfa⟩ := ih hm hb'
          exact ⟨a, by simp [ha], hfa⟩

end Src

namespace Src

/-- Concrete instance data: one facility, one scenario holding one pixel,
one period, fixed-capacity mode, continuous `X`. -/
def instA5 : Instance :=
  { id_instance := "1",
    config := { is_continuous_var_x := true, type_of_flexibility := FIXED_CAPACITY,
                N := 1, is_evaluation := false, sampling_id := none },
    periods := 1, vehicles := [("v", wVeh)], facilities := [("f", wFac)],
    scenarios := [("1", wScen)] }

/-- Claim C1 (code defect): with the variable dicts exactly as
`__add_variables` declares them, `__add_constr_A_5` raises `KeyError`
because it looks `X` and `W` up with scenario id and period swapped
(`(i, k, n, t)` / `(k, n, t)` against declared `(i, k, t, n)` /
`(k, t, n)`), and a str scenario id never equals an int period. -/
theorem C1_demand_constraint_keyerror :
    addConstrA5 instA5 (addVariables instA5 emptyModel).1 = .error ("KeyError") :=
  rfl

/-- A facility with a positive-capacity tier. -/
def wFacPos : Facility :=
  { id_facility := "fp",
    geo_point := { lon := 0, lat := 0, area_surface := 0, speed_intra_stop := [] },
    capacity := [("q1", 100)], cost_installation := [("q1", 500)],
    cost_operation := [("q1", [10])], cost_sourcing := 0, is_depot := false }

/-- A scenario with no pixels but with (empty) cost and fleet tables. -/
def wScenEmpty : Scenario :=
  { id_scenario := "1", pixels := [],
    costs := some [("facility", []), ("dc", [])],
    fleet_size := some [("facility", []), ("dc", [])], periods := 1 }

/-- Concrete instance data with a positive-capacity tier. -/
def instObj : Instance :=
  { id_instance := "1",
    config := { is_continuous_var_x := true, type_of_flexibility := FIXED_CAPACITY,
                N := 1, is_evaluation := false, sampling_id := none },
    periods := 1, vehicles := [("v", wVeh)], facilities := [("fp", wFacPos)],
    scenarios := [("1", wScenEmpty)] }

/-- Claim C4 (code defect): the installation-cost term of
`__add_objective` reads `facility.cost_fixed[q]`, but `Facility` defines
`cost_installation` and no `cost_fixed` attribute, so building the
objective raises `AttributeError` for any facility with a
positive-capacity tier and the claimed objective is never assembled. -/
theorem C4_objective_attribute_error :
    addObjective instObj (addVariables instObj emptyModel).1 emptyModel =
      .error ("AttributeError: Facility object has no attribute cost_fixed") :=
  rfl

end Src

namespace Src

/-- Intro rule for the A.3 iteration space. -/
theorem mem_a3Items {inst : Instance} {t : ℕ} {n i : String} {fac : Facility}
    {sc : Scenario} (ht : t < inst.periods) (hns : (n, sc) ∈ inst.scenarios)
    (hifc : (i, fac) ∈ inst.facilities) : (t, n, i, fac) ∈ a3Items inst := by
  simp only [a3Items, List.mem_flatMap, List.mem_map, List.mem_range]
  exact ⟨t, ht, (n, sc), hns, (i, fac), hifc, rfl⟩

/-- Intro rule for the A.4 iteration space. -/
theorem mem_a4Items {inst : Instance} {t : ℕ} {n i : String} {fac : Facility}
    {sc : Scenario} (ht : t < inst.periods) (hifc : (i, fac) ∈ inst.facilities)
    (hns : (n, sc) ∈ inst.scenarios) : (t, (i, fac), n, sc) ∈ a4Items inst := by
  simp only [a4Items, List.mem_flatMap, List.mem_map, List.mem_range]
  exact ⟨t, ht, (i, fac), hifc, (n, sc), hns, rfl⟩

/-- Constraints produced by A.1 are all named `R_Open`. -/
theorem addConstrA1_names {inst : Instance} {v : VariablesModel} {cs : List Constr}
    (h : addConstrA1 inst v = .ok cs) : ∀ c ∈ cs, ∃ i, c.name = ConstrName.rOpen i := by
  intro c hc
  obtain ⟨a, -, hfa⟩ := mapE_mem_of_ok h hc
  rw [bindE_ok] at hfa
  obtain ⟨ys, -, hfa⟩ := hfa
  injection hfa with hfa
  exact ⟨a.1, by rw [← hfa]⟩

/-- Constraints produced by A.4 are all named `R_capacity`. -/
theorem addConstrA4_names {inst : Instance} {v : VariablesModel} {cs : List Constr}
    (h : addConstrA4 inst v = .ok cs) :
    ∀ c ∈ cs, ∃ i t n, c.name = ConstrName.rCapacity i t n := by
  intro c hc
  unfold addConstrA4 at h
  rw [bindE_ok] at h
  obtain ⟨css, hcss, h⟩ := h
  injection h with h
  rw [← h] at hc
  rw [List.mem_flatten] at hc
  obtain ⟨csI, hcsI, hcmem⟩ := hc
  obtain ⟨a, -, hfa⟩ := mapE_mem_of_ok hcss hcsI
  rw [bindE_ok] at hfa
  obtain ⟨fs, -, hfa⟩ := hfa
  split_ifs at hfa
  · rw [bindE_ok] at hfa
    obtain ⟨xts, -, hfa⟩ := hfa
    rw [bindE_ok] at hfa
    obtain ⟨zts, -, hfa⟩ := hfa
    injection hfa with hfa
    rw [← hfa] at hcmem
    rcases List.mem_singleton.mp hcmem with rfl
    exact ⟨a.2.1.1, a.1, a.2.2.1, rfl⟩
  · rw [bindE_ok] at hfa
    obtain ⟨xts, -, hfa⟩ := hfa
    rw [bindE_ok] at hfa
    obtain ⟨yts, -, hfa⟩ := hfa
    injection hfa with hfa
    rw [← hfa] at hcmem
    rcases List.mem_singleton.mp hcmem with rfl
    exact ⟨a.2.1.1, a.1, a.2.2.1, rfl⟩
  · injection hfa with hfa
    rw [← hfa] at hcmem
    exact absurd hcmem (by simp)

/-- Constraints produced by A.5 are all named `R_demand`. -/
theorem addConstrA5_names {inst : Instance} {v : VariablesModel} {cs : List Constr}
    (h : addConstrA5 inst v = .ok cs) :
    ∀ c ∈ cs, ∃ k t n, c.name = ConstrName.rDemand k t n := by
  intro c hc
  obtain ⟨a, -, hfa⟩ := mapE_mem_of_ok h hc
  rw [bindE_ok] at hfa
  obtain ⟨xs, -, hfa⟩ := hfa
  rw [bindE_ok] at hfa
  obtain ⟨w, -, hfa⟩ := hfa
  injection hfa with hfa
  exact ⟨a.2.2, a.2.1, a.1, by rw [← hfa]⟩

end Src

namespace Src

/-- Claim C7: under flexible capacity, for every facility, period,
scenario and tier `q` whose capacity is strictly below the facility
maximum, `__add_constr_A_3` emits the constraint that the sum of `Z` over
the tiers of strictly greater capacity (capacity-value comparison, not
label comparison) is at most `1 - Y[(i, q)]`; under fixed capacity no `Z`
variable is created and no A.3-named constraint is emitted by
`__add_constraints`. -/
theorem C7_tier_activation_flex_only :
    (∀ (inst : Instance) (v : VariablesModel) (cs : List Constr) (i : String)
        (fac : Facility) (q : String) (cap : ℚ) (t : ℕ) (n : String) (sc : Scenario)
        (maxCap : ℚ) (zIdx : String → ℕ) (yv : ℕ),
      inst.config.type_of_flexibility = FLEX_CAPACITY →
      addConstrA3 inst v = .ok cs →
      (i, fac) ∈ inst.facilities → (q, cap) ∈ fac.capacity → t < inst.periods →
      (n, sc) ∈ inst.scenarios →
      pyMax (fac.capacity.map Prod.snd) = .ok maxCap → cap < maxCap →
      (∀ qh ∈ fac.capacity.filter (fun qh => cap < qh.2),
        pyGet v.Z (zKey i qh.1 t n) = .ok (zIdx qh.1)) →
      pyGet v.Y (yKey i q) = .ok yv →
      { name := ConstrName.rOperating i q t n,
        lhs := sumVars ((fac.capacity.filter (fun qh => cap < qh.2)).map fun qh => zIdx qh.1),
        sense := CSense.le, rhs := subL (constL 1) (oneVar yv) } ∈ cs) ∧
    ∀ (inst : Instance) (st : ModelState),
      inst.config.type_of_flexibility = FIXED_CAPACITY →
      (addVariables inst st).1.Z = [] ∧
      ∀ (v : VariablesModel) (cs : List Constr), addConstraints inst v = .ok cs →
        ∀ c ∈ cs, ∀ i q t n, c.name ≠ ConstrName.rOperating i q t n := by
  constructor
  · intro inst v cs i fac q cap t n sc maxCap zIdx yv hflex h hfac hq ht hns hmax hcap hz hy
    unfold addConstrA3 at h
    rw [bindE_ok] at h
    obtain ⟨css, hcss, h⟩ := h
    injection h with h
    obtain ⟨csI, hfI, hmemI⟩ := mapE_ok_of_mem (mem_a3Items ht hns hfac) hcss
    rw [bindE_ok] at hfI
    obtain ⟨mc, hmc, hfI⟩ := hfI
    rw [hmax] at hmc
    injection hmc with hmc
    subst hmc
    have hqf : (q, cap) ∈ fac.capacity.filter (fun qc => qc.2 < maxCap) :=
      List.mem_filter.mpr ⟨hq, by simpa using hcap⟩
    obtain ⟨c, hgc, hcmem⟩ := mapE_ok_of_mem hqf hfI
    rw [bindE_ok] at hgc
    obtain ⟨zs, hzs, hgc⟩ := hgc
    rw [mapE_eq_map (g := fun qh => zIdx qh.1) hz] at hzs
    injection hzs with hzs
    rw [bindE_ok] at hgc
    obtain ⟨y, hyv, hgc⟩ := hgc
    rw [hy] at hyv
    injection hyv with hyv
    injection hgc with hgc
    rw [← h]
    rw [List.mem_flatten]
    refine ⟨csI, hmemI, ?_⟩
    rw [← hgc, ← hzs, ← hyv] at hcmem
    exact hcmem
  · intro inst st hfix
    have hne : FIXED_CAPACITY ≠ FLEX_CAPACITY := by decide
    constructor
    · unfold addVariables
      rw [hfix, if_neg hne]
    · intro v cs h c hc i q t n
      unfold addConstraints at h
      rw [bindE_ok] at h
      obtain ⟨a1, ha1, h⟩ := h
      rw [bindE_ok] at h
      obtain ⟨a23, ha23, h⟩ := h
      rw [bindE_ok] at h
      obtain ⟨a4, ha4, h⟩ := h
      rw [bindE_ok] at h
      obtain ⟨a5, ha5, h⟩ := h
      unfold addConstrA23 at ha23
      rw [hfix, if_neg hne] at ha23
      injection ha23 with ha23
      subst ha23
      injection h with h
      rw [← h] at hc
      simp only [List.append_nil, List.mem_append] at hc
      rcases hc with (hc | hc) | hc
      · obtain ⟨i', hname⟩ := addConstrA1_names ha1 c hc
        simp [hname]
      · obtain ⟨i', t', n', hname⟩ := addConstrA4_names ha4 c hc
        simp [hname]
      · obtain ⟨k', t', n', hname⟩ := addConstrA5_names ha5 c hc
        simp [hname]

end Src

namespace Src

/-- A facility with two tiers of capacities 1 and 2. -/
def wFac2 : Facility :=
  { id_facility := "f2",
    geo_point := { lon := 0, lat := 0, area_surface := 0, speed_intra_stop := [] },
    capacity := [("q1", 1), ("q2", 2)], cost_installation := [("q1", 1), ("q2", 2)],
    cost_operation := [("q1", [1]), ("q2", [2])], cost_sourcing := 0, is_depot := false }

/-- A concrete flex-capacity instance. -/
def instFlex : Instance :=
  { id_instance := "1",
    config := { is_continuous_var_x := true, type_of_flexibility := FLEX_CAPACITY,
                N := 1, is_evaluation := false, sampling_id := none },
    periods := 1, vehicles := [("v", wVeh)], facilities := [("f2", wFac2)],
    scenarios := [("1", wScenEmpty)] }

/-- The variable dicts `__add_variables` builds for `instFlex`. -/
def varsFlex : VariablesModel := (addVariables instFlex emptyModel).1

/-- Decidable equality of `Except` results (component-wise). -/
instance {ε α : Type} [DecidableEq ε] [DecidableEq α] : DecidableEq (Except ε α) := fun x y =>
  match x, y with
  | .error a, .error b =>
    if h : a = b then isTrue (by rw [h]) else isFalse (by intro hc; cases hc; exact h rfl)
  | .ok a, .ok b =>
    if h : a = b then isTrue (by rw [h]) else isFalse (by intro hc; cases hc; exact h rfl)
  | .error _, .ok _ => isFalse (by intro hc; cases hc)
  | .ok _, .error _ => isFalse (by intro hc; cases hc)

/-- Unwrap a successful constraint list (empty on error). -/
def exOkL (e : Except String (List Constr)) : List Constr :=
  match e with
  | .ok l => l
  | .error _ => []

/-- The A.3 constraints built for `instFlex`. -/
def csFlex : List Constr := exOkL (addConstrA3 instFlex varsFlex)

theorem C7_witness :
    ({ name := ConstrName.rOperating ("f2") ("q1") 0 ("1"),
       lhs := sumVars ((wFac2.capacity.filter fun qh => (1 : ℚ) < qh.2).map
         fun qh => (fun q => if q = "q2" then 1 else 0 : String → ℕ) qh.1),
       sense := CSense.le, rhs := subL (constL 1) (oneVar 2) } : Constr) ∈ csFlex ∧
      (addVariables instA5 emptyModel).1.Z = [] := by
  constructor
  · exact C7_tier_activation_flex_only.1 instFlex varsFlex csFlex ("f2") wFac2 ("q1") 1 0
      ("1") wScenEmpty 2 (fun q => if q = "q2" then 1 else 0) 2 rfl rfl (by simp [instFlex])
      (by decide) (by decide) (by simp [instFlex]) (by decide) (by decide) (by decide)
      (by decide)
  · exact (C7_tier_activation_flex_only.2 instA5 emptyModel rfl).1

end Src

namespace Src

/-- Claim C10: in both capacity modes, the A.4 constraint built for a
`(period, facility, scenario)` triple carries, for every pixel of the
scenario, the assignment variable `X[(i, k, t, n)]` weighted by the
scenario fleet-size value rounded to one decimal place (`round(·, 1)`),
not by the exact CA value — and one-decimal rounding genuinely changes
values (`round(0.14, 1) = 0.1`). -/
theorem C10_capacity_weights_rounded_fleet :
    (∀ (inst : Instance) (v : VariablesModel) (cs : List Constr) (i : String)
        (fac : Facility) (t : ℕ) (n : String) (sc : Scenario) (fs : EchTable)
        (xIdx : String → ℕ) (frec : String → FieldRec) (fval : String → ℚ)
        (zyIdx : String → ℕ),
      (inst.config.type_of_flexibility = FLEX_CAPACITY ∨
        inst.config.type_of_flexibility = FIXED_CAPACITY) →
      addConstrA4 inst v = .ok cs →
      t < inst.periods → (i, fac) ∈ inst.facilities → (n, sc) ∈ inst.scenarios →
      sc.get_fleet_size ("facility") = .ok fs →
      (∀ kp ∈ sc.pixels, pyGet v.X (xKey i kp.1 t n) = .ok (xIdx kp.1)) →
      (∀ kp ∈ sc.pixels,
        pyGet fs [PyVal.vs i, PyVal.vs kp.1, PyVal.vi t] = .ok (frec kp.1)) →
      (∀ kp ∈ sc.pixels, pyGet (frec kp.1) ("fleet_size") = .ok (fval kp.1)) →
      (∀ qc ∈ fac.capacity.filter (fun qc => 0 < qc.2),
        (if inst.config.type_of_flexibility = FLEX_CAPACITY then pyGet v.Z (zKey i qc.1 t n)
         else pyGet v.Y (yKey i qc.1)) = .ok (zyIdx qc.1)) →
      { name := ConstrName.rCapacity i t n,
        lhs := subL
          (sumTerms (sc.pixels.map fun kp => (pyRound 1 (fval kp.1), xIdx kp.1)))
          (sumTerms ((fac.capacity.filter fun qc => 0 < qc.2).map
            fun qc => (qc.2, zyIdx qc.1))),
        sense := CSense.le, rhs := constL 0 } ∈ cs) ∧
      pyRound 1 (14 / 100 : ℚ) = 1 / 10 ∧ (14 / 100 : ℚ) ≠ 1 / 10 := by
  refine ⟨?_, ?_, by norm_num⟩
  case refine_2 =>
    have hf : ⌊(14 / 100 : ℚ) * 10 ^ 1⌋ = 1 := by
      rw [Int.floor_eq_iff]
      norm_num
    rw [pyRound, roundHalfEven, hf]
    norm_num
  · intro inst v cs i fac t n sc fs xIdx frec fval zyIdx hmode h ht hfac hns hfs hx hfr hfv hzy
    unfold addConstrA4 at h
    rw [bindE_ok] at h
    obtain ⟨css, hcss, h⟩ := h
    injection h with h
    obtain ⟨csI, hfI, hmemI⟩ := mapE_ok_of_mem (mem_a4Items ht hfac hns) hcss
    rw [bindE_ok] at hfI
    obtain ⟨fs', hfs', hfI⟩ := hfI
    rw [hfs] at hfs'
    injection hfs' with hfs'
    subst hfs'
    rw [← h]
    rw [List.mem_flatten]
    refine ⟨csI, hmemI, ?_⟩
    rcases hmode with hmode | hmode
    · rw [if_pos hmode] at hfI
      rw [bindE_ok] at hfI
      obtain ⟨xts, hxts, hfI⟩ := hfI
      rw [mapE_eq_map (g := fun kp => (pyRound 1 (fval kp.1), xIdx kp.1)) ?hpt] at hxts
      case hpt =>
        intro kp hkp
        rw [bindE_ok]
        exact ⟨xIdx kp.1, hx kp hkp, by
          rw [bindE_ok]
          exact ⟨frec kp.1, hfr kp hkp, by
            rw [bindE_ok]
            exact ⟨fval kp.1, hfv kp hkp, rfl⟩⟩⟩
      injection hxts with hxts
      rw [bindE_ok] at hfI
      obtain ⟨zts, hzts, hfI⟩ := hfI
      rw [mapE_eq_map (g := fun qc => (qc.2, zyIdx qc.1)) ?hpz] at hzts
      case hpz =>
        intro qc hqc
        rw [bindE_ok]
        refine ⟨zyIdx qc.1, ?_, rfl⟩
        have := hzy qc hqc
        rwa [if_pos hmode] at this
      injection hzts with hzts
      injection hfI with hfI
      rw [← hfI, ← hxts, ← hzts]
      simp
    · have hnefl : inst.config.type_of_flexibility ≠ FLEX_CAPACITY := by
        rw [hmode]; decide
      rw [if_neg hnefl] at hfI
      rw [if_pos hmode] at hfI
      rw [bindE_ok] at hfI
      obtain ⟨xts, hxts, hfI⟩ := hfI
      rw [mapE_eq_map (g := fun kp => (pyRound 1 (fval kp.1), xIdx kp.1)) ?hpt2] at hxts
      case hpt2 =>
        intro kp hkp
        rw [bindE_ok]
        exact ⟨xIdx kp.1, hx kp hkp, by
          rw [bindE_ok]
          exact ⟨frec kp.1, hfr kp hkp, by
            rw [bindE_ok]
            exact ⟨fval kp.1, hfv kp hkp, rfl⟩⟩⟩
      injection hxts with hxts
      rw [bindE_ok] at hfI
      obtain ⟨yts, hyts, hfI⟩ := hfI
      rw [mapE_eq_map (g := fun qc => (qc.2, zyIdx qc.1)) ?hpy] at hyts
      case hpy =>
        intro qc hqc
        rw [bindE_ok]
        refine ⟨zyIdx qc.1, ?_, rfl⟩
        have := hzy qc hqc
        rwa [if_neg hnefl] at this
      injection hyts with hyts
      injection hfI with hfI
      rw [← hfI, ← hxts, ← hyts]
      simp

end Src

namespace Src

/-- A facility with one positive tier of capacity 2. -/
def wFacPos2 : Facility :=
  { id_facility := "fp2",
    geo_point := { lon := 0, lat := 0, area_surface := 0, speed_intra_stop := [] },
    capacity := [("q1", 2)], cost_installation := [("q1", 1)],
    cost_operation := [("q1", [1])], cost_sourcing := 0, is_depot := false }

/-- A scenario with one pixel and populated cost / fleet tables. -/
def wScenFleet : Scenario :=
  { id_scenario := "1", pixels := [("p", wPx)],
    costs := some
      [("facility", [([PyVal.vs ("fp2"), PyVal.vs ("p"), PyVal.vi 0], [("total", 5)])]),
       ("dc", [([PyVal.vs ("p"), PyVal.vi 0], [("total", 7)])])],
    fleet_size := some
      [("facility", [([PyVal.vs ("fp2"), PyVal.vs ("p"), PyVal.vi 0], [("fleet_size", 3)])]),
       ("dc", [])],
    periods := 1 }

/-- A concrete fixed-capacity instance with one pixel. -/
def instA4 : Instance :=
  { id_instance := "1",
    config := { is_continuous_var_x := true, type_of_flexibility := FIXED_CAPACITY,
                N := 1, is_evaluation := false, sampling_id := none },
    periods := 1, vehicles := [("v", wVeh)], facilities := [("fp2", wFacPos2)],
    scenarios := [("1", wScenFleet)] }

/-- The variable dicts `__add_variables` builds for `instA4`. -/
def varsA4 : VariablesModel := (addVariables instA4 emptyModel).1

/-- The A.4 constraints built for `instA4`. -/
def csA4 : List Constr := exOkL (addConstrA4 instA4 varsA4)

theorem C10_witness :
    ({ name := ConstrName.rCapacity ("fp2") 0 ("1"),
       lhs := subL
        (sumTerms (wScenFleet.pixels.map fun kp =>
          (pyRound 1 ((fun _ => (3 : ℚ)) kp.1), (fun _ => (0 : ℕ)) kp.1)))
        (sumTerms ((wFacPos2.capacity.filter fun qc => 0 < qc.2).map
          fun qc => (qc.2, (fun _ => (2 : ℕ)) qc.1))),
       sense := CSense.le, rhs := constL 0 } : Constr) ∈ csA4 ∧
      pyRound 1 (14 / 100 : ℚ) = 1 / 10 := by
  constructor
  · exact C10_capacity_weights_rounded_fleet.1 instA4 varsA4 csA4 ("fp2") wFacPos2 0 ("1")
      wScenFleet
      [([PyVal.vs ("fp2"), PyVal.vs ("p"), PyVal.vi 0], [("fleet_size", 3)])]
      (fun _ => 0) (fun _ => [("fleet_size", 3)]) (fun _ => 3) (fun _ => 2)
      (Or.inr rfl) rfl (by decide) (by simp [instA4]) (by simp [instA4]) rfl
      (by decide) (by decide) (by decide) (by decide)
  · exact C10_capacity_weights_rounded_fleet.2.1

end Src

namespace Src

/-- The full variable schedule one `__add_variables` call appends to the
model: `Z` (flex mode only), `X`, `W`, `Y`, in creation order. -/
def plannedVars (inst : Instance) : List (VarName × VType) :=
  (if inst.config.type_of_flexibility = FLEX_CAPACITY then
    (zEntries inst).map (fun e => (e.2, VType.binary))
   else []) ++
    (xEntries inst).map
      (fun e => (e.2, if inst.config.is_continuous_var_x then VType.continuous
        else VType.binary)) ++
    (wEntries inst).map
      (fun e => (e.2, if inst.config.is_continuous_var_x then VType.continuous
        else VType.binary)) ++
    (yEntries inst).map (fun e => (e.2, VType.binary))

theorem addVarDict_varsAdded (vt : VType) :
    ∀ (entries : List (List PyVal × VarName)) (st : ModelState),
      (addVarDict vt entries st).2.varsAdded =
        st.varsAdded ++ entries.map (fun e => (e.2, vt)) := by
  intro entries
  induction entries with
  | nil => intro st; simp [addVarDict]
  | cons e rest ih =>
    intro st
    simp only [addVarDict, ih, addVar, List.map_cons]
    simp

theorem addVariables_varsAdded (inst : Instance) (st : ModelState) :
    (addVariables inst st).2.varsAdded = st.varsAdded ++ plannedVars inst := by
  unfold addVariables plannedVars
  by_cases hflex : inst.config.type_of_flexibility = FLEX_CAPACITY
  · simp only [hflex, if_pos, addVarDict_varsAdded]
    simp [addVarDict_varsAdded, List.append_assoc]
  · simp only [hflex, if_neg, ite_false, addVarDict_varsAdded]
    simp [addVarDict_varsAdded, List.append_assoc]

theorem addObjective_ok_varsAdded {inst : Instance} {v : VariablesModel}
    {st : ModelState} {po : ObjectiveModel × ModelState}
    (h : addObjective inst v st = .ok po) : po.2.varsAdded = st.varsAdded := by
  unfold addObjective at h
  rw [bindE_ok] at h
  obtain ⟨instE, -, h⟩ := h
  rw [bindE_ok] at h
  obtain ⟨opE, -, h⟩ := h
  rw [bindE_ok] at h
  obtain ⟨facE, -, h⟩ := h
  rw [bindE_ok] at h
  obtain ⟨dcE, -, h⟩ := h
  rw [bindE_ok] at h
  obtain ⟨opExpr, -, h⟩ := h
  rw [bindE_ok] at h
  obtain ⟨invN, -, h⟩ := h
  injection h with h
  rw [← h]

theorem build_ok_varsAdded {inst : Instance} {b b' : BuilderState}
    (h : build inst b = .ok b') :
    b'.model.varsAdded = b.model.varsAdded ++ plannedVars inst := by
  unfold build at h
  rw [bindE_ok] at h
  obtain ⟨po, hpo, h⟩ := h
  rw [bindE_ok] at h
  obtain ⟨cs, -, h⟩ := h
  injection h with h
  rw [← h]
  have h1 := addObjective_ok_varsAdded hpo
  have h2 := addVariables_varsAdded inst b.model
  simp only []
  rw [h1, h2]

/-- A concrete buildable instance: one facility with one zero-capacity
tier, one pixel-free scenario with empty cost tables, one period,
fixed-capacity mode. -/
def instC8 : Instance :=
  { id_instance := "1",
    config := { is_continuous_var_x := false, type_of_flexibility := FIXED_CAPACITY,
                N := 1, is_evaluation := false, sampling_id := none },
    periods := 1, vehicles := [("v", wVeh)], facilities := [("f", wFac)],
    scenarios := [("1", wScenEmpty)] }

/-- Number of variables the underlying model of a build outcome holds. -/
def exCount (e : Except String BuilderState) : ℕ :=
  match e with
  | .ok s => s.model.varsAdded.length
  | .error _ => 0

/-- Claim C8 counterexample: on a concrete instance (one facility with a
single zero-capacity tier, one pixel-free scenario, one period,
fixed-capacity mode), calling `build` twice does not leave the model
identical to calling it once. -/
theorem C8_counterexample :
    (build instC8 initialBuilder).bind (build instC8) ≠ build instC8 initialBuilder := by
  intro hcontra
  have h := congrArg exCount hcontra
  have h1 : exCount ((build instC8 initialBuilder).bind (build instC8)) = 2 := rfl
  have h2 : exCount (build instC8 initialBuilder) = 1 := rfl
  rw [h1, h2] at h
  exact absurd h (by decide)

/-- Claim C8 amended: `build()` is not idempotent — every successful call
appends one full copy of the variable schedule to the underlying model,
so a second `build()` leaves the model with two copies of every declared
variable and differs from the single-build state whenever the instance
declares at least one variable. -/
theorem C8_build_not_idempotent (inst : Instance) (b₁ b₂ b₃ : BuilderState)
    (h₁ : build inst b₁ = .ok b₂) (h₂ : build inst b₂ = .ok b₃) :
    b₂.model.varsAdded = b₁.model.varsAdded ++ plannedVars inst ∧
      b₃.model.varsAdded = b₂.model.varsAdded ++ plannedVars inst ∧
      (plannedVars inst ≠ [] → b₃ ≠ b₂) := by
  refine ⟨build_ok_varsAdded h₁, build_ok_varsAdded h₂, fun hne hcontra => ?_⟩
  have hva := build_ok_varsAdded h₂
  rw [hcontra] at hva
  have hlen := congrArg List.length hva
  rw [List.length_append] at hlen
  have : (plannedVars inst).length = 0 := by omega
  exact hne (List.length_eq_zero.mp this)

end Src

namespace Src

/-- Unwrap a successful build (initial builder on error). -/
def exOkB (e : Except String BuilderState) : BuilderState :=
  match e with
  | .ok s => s
  | .error _ => initialBuilder

/-- Builder state after one build of `instC8`. -/
def s₁C8 : BuilderState := exOkB (build instC8 initialBuilder)

/-- Builder state after two builds of `instC8`. -/
def s₂C8 : BuilderState := exOkB (build instC8 s₁C8)

theorem C8_witness :
    build instC8 initialBuilder = .ok s₁C8 ∧ build instC8 s₁C8 = .ok s₂C8 ∧
      s₂C8.model.varsAdded = s₁C8.model.varsAdded ++ plannedVars instC8 ∧ s₂C8 ≠ s₁C8 := by
  have h₁ : build instC8 initialBuilder = .ok s₁C8 := rfl
  have h₂ : build instC8 s₁C8 = .ok s₂C8 := rfl
  obtain ⟨-, hb, hc⟩ := C8_build_not_idempotent instC8 initialBuilder s₁C8 s₂C8 h₁ h₂
  exact ⟨h₁, h₂, hb, hc (by decide)⟩

end Src
